import Mathlib

/-!
# Replica consistency checker and meta-node scheduling state of the cluster master

A shallow embedding of `master/filecheck.go`, `master/filecrc.go` and
`master/meta_node.go`.

* Unsigned machine integers are `Nat`, signed ones `Int`; where the Go code can
  wrap, the wrap is written out (`wrapInt64`, `% 2 ^ 64`).
* `Warn(clusterID, msg)` is the only output of the checker.  A run of a checker
  function is the list of warnings it emitted, in order, together with a flag
  telling whether the run ended in a Go runtime panic (`Outcome`).  A warning
  keeps every argument that the source formats into the message.
* `time.Now().Unix()` is the parameter `now`; the readings of the clock within
  one call are one instant.
* `float32` and `float64` are modelled bit-exactly as IEEE-754 data (`Flt`).
* `sort.Sort` belongs to the Go standard library; the checker takes the sorting
  function as a parameter and the theorems assume only what `sort.Sort`
  documents (`SortsByCount`).  `goInsertionSort` is the algorithm the library
  runs on slices of a few elements.
* Locks are not modelled: every function is one atomic step on the state it is
  given.
-/

namespace Master

/-! ## Constants declared outside the three source files -/

/-- The package-level constants `defaultFileDelayCheckCrcSec`,
`checkMissFileReplicaTime`, `defaultMetaNodeReservedMem`,
`defaultMetaPartitionCountOnEachNode` and `defaultNodeTimeOutSec` are used by the
source but declared in a file that is not part of it, and the spec names them
without giving values.  They are parameters of the model. -/
structure Consts where
  defaultFileDelayCheckCrcSec : Int
  checkMissFileReplicaTime : Int
  defaultMetaNodeReservedMem : Nat
  defaultMetaPartitionCountOnEachNode : Int
  defaultNodeTimeOutSec : Int
deriving Repr

/-- Two's-complement wrap of a mathematical integer into `int64`. -/
def wrapInt64 (x : Int) : Int := (x + 2 ^ 63) % 2 ^ 64 - 2 ^ 63

/-! ## Data model of the checker -/

/-- Modelled from the spec: `FileMetaOnNode` is declared outside the source files.
The spec's ReplicaFileMeta is the "per-replica observed size and checksum for
one FileRecord, plus the owning replica's address"; the source reads the fields
`Crc`, `Size`, `locIndex` and calls `getLocationAddr`, `getFileCrc`. -/
structure FileMetaOnNode where
  Crc : Nat
  LocAddr : String
  locIndex : Nat
  Size : Nat
deriving DecidableEq, Repr

/-- Modelled from the spec: accessor of the replica address of a meta. -/
def FileMetaOnNode.getLocationAddr (fm : FileMetaOnNode) : String := fm.LocAddr

/-- Modelled from the spec: accessor of the checksum of a meta. -/
def FileMetaOnNode.getFileCrc (fm : FileMetaOnNode) : Nat := fm.Crc

/-- Modelled from the spec: a replica "carries the node address"; `Addr` is the
only field of `DataReplica` the source reads. -/
structure DataReplica where
  Addr : String
deriving DecidableEq, Repr

/-- Modelled from the spec: a FileRecord "holds the file name, last-modification
timestamp, and a mapping from replica address to ReplicaFileMeta". -/
structure FileInCore where
  Name : String
  LastModify : Int
  Metas : List FileMetaOnNode
deriving Repr

/-- Modelled from the spec: `getFileMetaByAddr` is declared outside the source
files; the record is "a mapping from replica address to ReplicaFileMeta", so the
lookup returns the meta stored for the replica's address, if any. -/
def FileInCore.getFileMetaByAddr (fc : FileInCore) (replica : DataReplica) :
    Option FileMetaOnNode :=
  fc.Metas.find? (fun fm => fm.LocAddr == replica.Addr)

/-- Modelled from the spec: `getFileMetaAddrs` is declared outside the source
files; it only feeds the text of the missing-replica warning: the addresses of
the metas of the record. -/
def FileInCore.getFileMetaAddrs (fc : FileInCore) : List String :=
  fc.Metas.map (fun fm => fm.LocAddr)

/-- `FileCrc` of `filecrc.go`: a checksum, the number of metas that carry it and
one representative meta (a pointer, `nil` until it is set). -/
structure FileCrc where
  crc : Nat
  count : Nat
  meta : Option FileMetaOnNode
deriving DecidableEq, Repr

/-- `newFileCrc`: count 1, no representative yet. -/
def newFileCrc (volCrc : Nat) : FileCrc :=
  { crc := volCrc, count := 1, meta := none }

/-- The part of `DataPartition` the checker reads.  `FileInCoreMap` is listed in
the order in which the `range` loop of `checkFileInternal` visits it. -/
structure DataPartition where
  PartitionID : Nat
  FileInCoreMap : List FileInCore
deriving Repr

/-- One line of `fileCrcSorterByCount.log`: address, count, checksum. -/
structure CrcLogEntry where
  addr : String
  count : Nat
  crc : Nat
deriving DecidableEq, Repr

/-- The warnings of the checker, by the format string that builds them. -/
inductive Warning where
  /-- "CheckFileError size not match": cluster and every collected meta. -/
  | sizeNotMatch (clusterID : String) (fms : List FileMetaOnNode)
  /-- "partitionid[..],file[..],fms[..],liveAddr[..]": a live replica has no meta. -/
  | missReplica (clusterID : String) (partitionID : Nat) (file : String)
      (fmsAddrs liveAddrs : List String)
  /-- "... diffrent between all Node it can not repair it"; `what` is the word
  that differs between the two functions that emit it. -/
  | cannotRepair (clusterID : String) (partitionID : Nat) (file : String)
      (what : String) (log : List CrcLogEntry)
  /-- "... badCrc On :addr". -/
  | badCrc (clusterID : String) (partitionID : Nat) (file : String)
      (badAddr : String) (log : List CrcLogEntry)
deriving DecidableEq, Repr

/-- Is the warning the "can not repair" one? -/
def Warning.isCannotRepair : Warning → Bool
  | .cannotRepair .. => true
  | _ => false

/-- Is the warning a bad-replica one? -/
def Warning.isBadCrc : Warning → Bool
  | .badCrc .. => true
  | _ => false

/-- Is the warning the missing-replica one? -/
def Warning.isMissReplica : Warning → Bool
  | .missReplica .. => true
  | _ => false

/-- Is the warning the size-mismatch one? -/
def Warning.isSizeNotMatch : Warning → Bool
  | .sizeNotMatch .. => true
  | _ => false

/-- The node address a bad-replica warning names. -/
def Warning.badAddr? : Warning → Option String
  | .badCrc _ _ _ a _ => some a
  | _ => none

/-- What a run of a checker function did: the warnings passed to `Warn`, in
order, and whether the run ended in a runtime panic. -/
structure Outcome where
  warns : List Warning
  panicked : Bool
deriving DecidableEq, Repr

/-- A run that returned normally. -/
def Outcome.ret (ws : List Warning) : Outcome := { warns := ws, panicked := false }

/-- A run that panicked after emitting `ws`. -/
def Outcome.panic (ws : List Warning) : Outcome := { warns := ws, panicked := true }

/-! ## `filecrc.go` -/

/-- `isCheckCrc`: `time.Now().Unix()-fc.LastModify > defaultFileDelayCheckCrcSec`
in `int64` arithmetic. -/
def FileInCore.isCheckCrc (cfg : Consts) (now : Int) (fc : FileInCore) : Bool :=
  decide (wrapInt64 (now - fc.LastModify) > cfg.defaultFileDelayCheckCrcSec)

/-- `needCrcRepair`: the metas of the live replicas, in the order of the
replicas, and whether one of them differs from the first in checksum. -/
def FileInCore.needCrcRepair (fc : FileInCore) (liveVols : List DataReplica) :
    List FileMetaOnNode × Bool :=
  let fms := liveVols.filterMap fc.getFileMetaByAddr
  match fms with
  | [] => (fms, false)
  | fm0 :: _ => (fms, fms.any (fun fm => fm.getFileCrc != fm0.Crc))

/-- `isSameSize`; `none` is the index-out-of-range panic of `fms[0]`. -/
def isSameSize (fms : List FileMetaOnNode) : Option Bool :=
  match fms with
  | [] => none
  | fm0 :: _ => some (fms.all (fun fm => fm.Size == fm0.Size))

/-- The `else` branch of the loop body of `calculateCrcCount`: `crc.count++` on
the first element whose checksum is `crcKey`. -/
def bumpCount (crcKey : Nat) : List FileCrc → List FileCrc
  | [] => []
  | c :: cs =>
    if c.crc = crcKey then { c with count := c.count + 1 } :: cs
    else c :: bumpCount crcKey cs

/-- The outer loop of `calculateCrcCount`, from the array built so far. -/
def calculateCrcCountFrom (fileCrcArr : List FileCrc) :
    List FileMetaOnNode → List FileCrc
  | [] => fileCrcArr
  | fm :: rest =>
    let crcKey := fm.getFileCrc
    if fileCrcArr.any (fun c => c.crc == crcKey) then
      calculateCrcCountFrom (bumpCount crcKey fileCrcArr) rest
    else
      calculateCrcCountFrom
        (fileCrcArr ++ [{ newFileCrc crcKey with meta := some fm }]) rest

/-- `calculateCrcCount`. -/
def calculateCrcCount (badVfNodes : List FileMetaOnNode) : List FileCrc :=
  calculateCrcCountFrom [] badVfNodes

/-- `fileCrcSorterByCount.log`; `none` when a group has a `nil` meta. -/
def crcLog : List FileCrc → Option (List CrcLogEntry)
  | [] => some []
  | c :: cs =>
    match c.meta, crcLog cs with
    | some fm, some l =>
      some ({ addr := fm.getLocationAddr, count := c.count, crc := c.crc } :: l)
    | _, _ => none

/-- What `sort.Sort(fileCrcSorterByCount(arr))` guarantees of its result: the
same elements, ordered so that no element is `Less` than an earlier one
(`Less i j` is `count i < count j`).  Nothing is promised about ties. -/
def SortsByCount (srt : List FileCrc → List FileCrc) : Prop :=
  ∀ l, (srt l).Perm l ∧ (srt l).Pairwise (fun a b => a.count ≤ b.count)

/-- Insertion of one element from the right end, as the inner loop of the
library's `insertionSort` does: it moves left while it is `Less` than its left
neighbour.  The argument is the sorted prefix, reversed. -/
def insertFromRight (x : FileCrc) : List FileCrc → List FileCrc
  | [] => [x]
  | y :: ys => if x.count < y.count then y :: insertFromRight x ys else x :: y :: ys

/-- The library's `insertionSort` over `fileCrcSorterByCount`. -/
def goInsertionSort (l : List FileCrc) : List FileCrc :=
  (l.foldl (fun acc x => insertFromRight x acc) []).reverse

/-- The `range` loop that ends `checkExtentFile` and `generateFileCrcTask`
(the two loops are the same text): one bad-replica warning for every index other than `maxCountFileCrcIndex`.  A `nil`
meta panics at `getLocationAddr`. -/
def badCrcLoop (clusterID : String) (partitionID : Nat) (file : String)
    (fileCrcArr : List FileCrc) (maxCountFileCrcIndex : Nat) :
    List (Nat × FileCrc) → List Warning → Outcome
  | [], acc => Outcome.ret acc
  | (index, crc) :: rest, acc =>
    if index ≠ maxCountFileCrcIndex then
      match crc.meta, crcLog fileCrcArr with
      | some badNode, some l =>
        badCrcLoop clusterID partitionID file fileCrcArr maxCountFileCrcIndex rest
          (acc ++ [Warning.badCrc clusterID partitionID file badNode.getLocationAddr l])
      | _, _ => Outcome.panic acc
    else
      badCrcLoop clusterID partitionID file fileCrcArr maxCountFileCrcIndex rest acc

/-- `checkChunkFile` of `filecheck.go` (tiny extents).  `isSameSize` reads
`fms[0]`, which panics when no meta was collected. -/
def checkChunkFile (cfg : Consts) (now : Int) (_partition : DataPartition)
    (fc : FileInCore) (liveReplicas : List DataReplica) (clusterID : String) : Outcome :=
  if fc.isCheckCrc cfg now = false then Outcome.ret []
  else
    let fms := (fc.needCrcRepair liveReplicas).1
    match isSameSize fms with
    | none => Outcome.panic []
    | some true => Outcome.ret []
    | some false => Outcome.ret [Warning.sizeNotMatch clusterID fms]

/-- `checkExtentFile` of `filecheck.go` (normal extents). -/
def checkExtentFile (srt : List FileCrc → List FileCrc) (cfg : Consts) (now : Int)
    (partition : DataPartition) (fc : FileInCore) (liveReplicas : List DataReplica)
    (clusterID : String) : Outcome :=
  if fc.isCheckCrc cfg now = false then Outcome.ret []
  else
    let (fms, needRepair) := fc.needCrcRepair liveReplicas
    let w1 : List Warning :=
      if fms.length < liveReplicas.length ∧
          wrapInt64 (now - fc.LastModify) > cfg.checkMissFileReplicaTime then
        [Warning.missReplica clusterID partition.PartitionID fc.Name fc.getFileMetaAddrs
          (liveReplicas.map (fun replica => replica.Addr))]
      else []
    if !needRepair then Outcome.ret w1
    else
      let fileCrcArr := srt (calculateCrcCount fms)
      let maxCountFileCrcIndex := fileCrcArr.length - 1
      match fileCrcArr.getLast? with
      | none => Outcome.panic w1
      | some top =>
        if top.count = 1 then
          match crcLog fileCrcArr with
          | some l =>
            Outcome.ret (w1 ++
              [Warning.cannotRepair clusterID partition.PartitionID fc.Name "ExtentOffset" l])
          | none => Outcome.panic w1
        else
          badCrcLoop clusterID partition.PartitionID fc.Name fileCrcArr maxCountFileCrcIndex
            fileCrcArr.enum w1

/-- Modelled from the spec: `proto.AdminTask` is declared outside the source
files; repair decisions are "opaque tasks" to this core. -/
structure AdminTask where
  ID : String
deriving DecidableEq, Repr

/-- `generateFileCrcTask` of `filecrc.go`: the task list it returns and its run. -/
def FileInCore.generateFileCrcTask (srt : List FileCrc → List FileCrc) (cfg : Consts)
    (now : Int) (fc : FileInCore) (partitionID : Nat) (liveVols : List DataReplica)
    (clusterID : String) : List AdminTask × Outcome :=
  let tasks : List AdminTask := []
  if fc.isCheckCrc cfg now = false then (tasks, Outcome.ret [])
  else
    let (fms, needRepair) := fc.needCrcRepair liveVols
    let w1 : List Warning :=
      if fms.length < liveVols.length ∧
          wrapInt64 (now - fc.LastModify) > cfg.checkMissFileReplicaTime then
        [Warning.missReplica clusterID partitionID fc.Name fc.getFileMetaAddrs
          (liveVols.map (fun replica => replica.Addr))]
      else []
    if !needRepair then (tasks, Outcome.ret w1)
    else
      let fileCrcArr := srt (calculateCrcCount fms)
      let maxCountFileCrcIndex := fileCrcArr.length - 1
      match fileCrcArr.getLast? with
      | none => (tasks, Outcome.panic w1)
      | some top =>
        if top.count = 1 then
          match crcLog fileCrcArr with
          | some l =>
            (tasks, Outcome.ret (w1 ++
              [Warning.cannotRepair clusterID partitionID fc.Name "CRC" l]))
          | none => (tasks, Outcome.panic w1)
        else
          (tasks, badCrcLoop clusterID partitionID fc.Name fileCrcArr maxCountFileCrcIndex
            fileCrcArr.enum w1)

/-! ## `filecheck.go`: classification and the scan of a partition -/

/-- `tinyExtentCount`. -/
def tinyExtentCount : Nat := 128

/-- `tinyExtentStartID`. -/
def tinyExtentStartID : Nat := 5000000

/-- `isTinyExtent`. -/
def isTinyExtent (extentID : Nat) : Bool :=
  decide (extentID ≥ tinyExtentStartID) && decide (extentID < tinyExtentStartID + tinyExtentCount)

/-- `strconv.ParseUint(s, 10, 64)` of the Go standard library: a non-empty string of
decimal digits, without sign, whose value fits 64 bits; `none` is the error result. -/
def parseUint64 (s : String) : Option Nat :=
  if s.data = [] then none
  else if s.data.all (fun c => decide ('0' ≤ c) && decide (c ≤ '9')) then
    let v := s.data.foldl (fun acc c => acc * 10 + (c.toNat - '0'.toNat)) 0
    if v < 2 ^ 64 then some v else none
  else none

/-- The loop of `checkFileInternal` over the records still to visit: a record whose
name does not parse is skipped, a panic ends the scan. -/
def checkFileLoop (srt : List FileCrc → List FileCrc) (cfg : Consts) (now : Int)
    (partition : DataPartition) (liveReplicas : List DataReplica) (clusterID : String) :
    List FileInCore → List Warning → Outcome
  | [], acc => Outcome.ret acc
  | fc :: rest, acc =>
    match parseUint64 fc.Name with
    | none => checkFileLoop srt cfg now partition liveReplicas clusterID rest acc
    | some extentID =>
      let r :=
        if isTinyExtent extentID then checkChunkFile cfg now partition fc liveReplicas clusterID
        else checkExtentFile srt cfg now partition fc liveReplicas clusterID
      if r.panicked then Outcome.panic (acc ++ r.warns)
      else checkFileLoop srt cfg now partition liveReplicas clusterID rest (acc ++ r.warns)

/-- `checkFileInternal`. -/
def checkFileInternal (srt : List FileCrc → List FileCrc) (cfg : Consts) (now : Int)
    (partition : DataPartition) (liveReplicas : List DataReplica) (clusterID : String) :
    Outcome :=
  checkFileLoop srt cfg now partition liveReplicas clusterID partition.FileInCoreMap []

/-! ## Go floating point

`float32` and `float64` are IEEE-754 binary32 and binary64; every operation
rounds its exact result to nearest, ties to even.  Only the operations
`meta_node.go` performs are defined. -/

/-- A floating-point datum: not-a-number, an infinity, or the finite value
`(-1)^neg * m * 2^e`.  The results of the operations below are in the form the
format stores (`m < 2^prec`, and `m ≥ 2^(prec-1)` unless `e` is the least
exponent). -/
inductive Flt where
  | nan
  | inf (neg : Bool)
  | fin (neg : Bool) (m : Nat) (e : Int)
deriving DecidableEq, Repr

/-- A binary format: bits of significand, exponent of the last place of the
subnormal numbers, exponent of the last place of the largest finite numbers. -/
structure FltFormat where
  prec : Nat
  emin : Int
  emax : Int

/-- The format of `float64`. -/
def binary64 : FltFormat := { prec := 53, emin := -1074, emax := 971 }

/-- The format of `float32`. -/
def binary32 : FltFormat := { prec := 24, emin := -149, emax := 104 }

/-- Number of binary digits of `n`, by halving at most `fuel` times. -/
def bitLenAux : Nat → Nat → Nat
  | 0, _ => 0
  | fuel + 1, n => if n = 0 then 0 else bitLenAux fuel (n / 2) + 1

/-- Number of binary digits of `n` (0 for 0). -/
def bitLen (n : Nat) : Nat := bitLenAux n n

/-- Rounding of the exact value `(-1)^neg * M * 2^E` to the format: to nearest,
ties to even; beyond the largest finite number the result is an infinity. -/
def Flt.round (f : FltFormat) (neg : Bool) (M : Nat) (E : Int) : Flt :=
  if M = 0 then Flt.fin neg 0 f.emin
  else
    let e : Int := max (E + bitLen M - f.prec) f.emin
    if e ≤ E then
      if e > f.emax then Flt.inf neg else Flt.fin neg (M * 2 ^ (E - e).toNat) e
    else
      let sh := (e - E).toNat
      let q := M / 2 ^ sh
      let r := M % 2 ^ sh
      let half := 2 ^ (sh - 1)
      let q1 := if r > half ∨ (r = half ∧ q % 2 = 1) then q + 1 else q
      let m := if q1 = 2 ^ f.prec then 2 ^ (f.prec - 1) else q1
      let e1 := if q1 = 2 ^ f.prec then e + 1 else e
      if e1 > f.emax then Flt.inf neg else Flt.fin neg m e1

/-- The finite value `(-1)^neg * m * 2^e` in units of `2^k`, for `k ≤ e`. -/
def Flt.scaled (k : Int) (neg : Bool) (m : Nat) (e : Int) : Int :=
  if neg then -((m * 2 ^ (e - k).toNat : Nat) : Int) else ((m * 2 ^ (e - k).toNat : Nat) : Int)

/-- The Go comparison `a < b`: false when an operand is not a number. -/
def Flt.lt : Flt → Flt → Bool
  | .nan, _ => false
  | _, .nan => false
  | .inf na, .inf nb => na && !nb
  | .inf na, .fin _ _ _ => na
  | .fin _ _ _, .inf nb => !nb
  | .fin na ma ea, .fin nb mb eb =>
    decide (Flt.scaled (min ea eb) na ma ea < Flt.scaled (min ea eb) nb mb eb)

/-- The Go comparison `a <= b`: false when an operand is not a number. -/
def Flt.le : Flt → Flt → Bool
  | .nan, _ => false
  | _, .nan => false
  | .inf na, .inf nb => na || !nb
  | .inf na, .fin _ _ _ => na
  | .fin _ _ _, .inf nb => !nb
  | .fin na ma ea, .fin nb mb eb =>
    decide (Flt.scaled (min ea eb) na ma ea ≤ Flt.scaled (min ea eb) nb mb eb)

/-- The Go comparison `a > b`. -/
def Flt.gt (a b : Flt) : Bool := Flt.lt b a

/-- The Go comparison `a >= b`. -/
def Flt.ge (a b : Flt) : Bool := Flt.le b a

/-- The Go subtraction `a - b` in the format `f`. -/
def Flt.sub (f : FltFormat) : Flt → Flt → Flt
  | .nan, _ => .nan
  | _, .nan => .nan
  | .inf na, .inf nb => if na = nb then .nan else .inf na
  | .inf na, .fin _ _ _ => .inf na
  | .fin _ _ _, .inf nb => .inf (!nb)
  | .fin na ma ea, .fin nb mb eb =>
    let k := min ea eb
    let d : Int := Flt.scaled k na ma ea - Flt.scaled k nb mb eb
    if d = 0 then Flt.fin (na && !nb) 0 f.emin
    else Flt.round f (decide (d < 0)) d.natAbs k

/-- The Go division `a / b` in the format `f`.  The exact quotient of two
non-zero finite values is cut after more digits than the format keeps and a
last digit records whether anything was cut off, which rounds like the exact
quotient. -/
def Flt.div (f : FltFormat) : Flt → Flt → Flt
  | .nan, _ => .nan
  | _, .nan => .nan
  | .inf _, .inf _ => .nan
  | .inf na, .fin nb _ _ => .inf (xor na nb)
  | .fin na _ _, .inf nb => .fin (xor na nb) 0 f.emin
  | .fin na ma ea, .fin nb mb eb =>
    if mb = 0 then (if ma = 0 then .nan else .inf (xor na nb))
    else if ma = 0 then .fin (xor na nb) 0 f.emin
    else
      let k := f.prec + 2 + bitLen mb
      let q := (ma * 2 ^ k) / mb
      let sticky := if (ma * 2 ^ k) % mb = 0 then 0 else 1
      Flt.round f (xor na nb) (2 * q + sticky) (ea - eb - k - 1)

/-- The Go conversion `float64(n)` of an unsigned integer. -/
def Flt.ofUInt64 (n : Nat) : Flt := Flt.round binary64 false n 0

/-- The Go conversion `float32(x)` of a `float64`. -/
def Flt.toFloat32 : Flt → Flt
  | .nan => .nan
  | .inf n => .inf n
  | .fin n m e => Flt.round binary32 n m e

/-- The `float64` constant `1.0`. -/
def Flt.one64 : Flt := Flt.fin false (2 ^ 52) (-52)

/-- The `float32` constant `0`. -/
def Flt.zero32 : Flt := Flt.fin false 0 (-149)

/-! ## `meta_node.go` -/

/-- `MetaNode`.  `Sender` is a pointer and `metaPartitionInfos` a slice of
pointers to values of the `proto` package, kept as identifiers; the embedded
lock has no value of its own.  `ReportTime` is an instant in nanoseconds. -/
structure MetaNode where
  ID : Nat
  Addr : String
  IsActive : Bool
  Sender : Nat
  RackName : String
  MaxMemAvailWeight : Nat
  Total : Nat
  Used : Nat
  Ratio : Flt
  SelectCount : Nat
  Carry : Flt
  Threshold : Flt
  ReportTime : Int
  metaPartitionInfos : List Nat
  MetaPartitionCount : Int
  NodeSetID : Nat
deriving DecidableEq, Repr

/-- `SetCarry`. -/
def MetaNode.SetCarry (metaNode : MetaNode) (carry : Flt) : MetaNode :=
  { metaNode with Carry := carry }

/-- `SelectNodeForWrite`: `SelectCount++` on a `uint64`, `Carry - 1.0` on a `float64`. -/
def MetaNode.SelectNodeForWrite (metaNode : MetaNode) : MetaNode :=
  { metaNode with
    SelectCount := (metaNode.SelectCount + 1) % 2 ^ 64
    Carry := Flt.sub binary64 metaNode.Carry Flt.one64 }

/-- `reachesThreshold`: the result and the node as the call leaves it.
`defaultMetaPartitionThreshold` is a `float32` constant declared outside the
source files and is a parameter. -/
def MetaNode.reachesThreshold (defaultMetaPartitionThreshold : Flt) (metaNode : MetaNode) :
    Bool × MetaNode :=
  let metaNode1 :=
    if Flt.le metaNode.Threshold Flt.zero32 then
      { metaNode with Threshold := defaultMetaPartitionThreshold }
    else metaNode
  (Flt.gt
      (Flt.toFloat32
        (Flt.div binary64 (Flt.ofUInt64 metaNode1.Used) (Flt.ofUInt64 metaNode1.Total)))
      metaNode1.Threshold,
    metaNode1)

/-- `isWriteAble`: the result `ok` and the node as the call leaves it.  The
operands of `&&` are evaluated from the left and only as far as needed. -/
def MetaNode.isWriteAble (cfg : Consts) (defaultMetaPartitionThreshold : Flt)
    (metaNode : MetaNode) : Bool × MetaNode :=
  if metaNode.IsActive && decide (metaNode.MaxMemAvailWeight > cfg.defaultMetaNodeReservedMem) then
    let (reaches, metaNode1) := metaNode.reachesThreshold defaultMetaPartitionThreshold
    if !reaches &&
        decide (metaNode1.MetaPartitionCount < cfg.defaultMetaPartitionCountOnEachNode) then
      (true, metaNode1)
    else (false, metaNode1)
  else (false, metaNode)

/-- `isAvailCarryNode`: `Carry >= 1`. -/
def MetaNode.isAvailCarryNode (metaNode : MetaNode) : Bool :=
  Flt.ge metaNode.Carry Flt.one64

/-- `setNodeAlive`; `now` is the reading of `time.Now()`, in nanoseconds. -/
def MetaNode.setNodeAlive (now : Int) (metaNode : MetaNode) : MetaNode :=
  { metaNode with ReportTime := now, IsActive := true }

/-- The fields of `proto.MetaNodeHeartbeatResponse` that `updateMetric` reads;
the type is declared outside the source files. -/
structure MetaNodeHeartbeatResponse where
  RackName : String
  Total : Nat
  Used : Nat
  MetaPartitionInfo : List Nat
deriving DecidableEq, Repr

/-- The `float64` constant `0`. -/
def Flt.zero64 : Flt := Flt.fin false 0 (-1074)

/-- `updateMetric`; `resp.Total - resp.Used` is a `uint64` difference. -/
def MetaNode.updateMetric (metaNode : MetaNode) (resp : MetaNodeHeartbeatResponse)
    (threshold : Flt) : MetaNode :=
  { metaNode with
    metaPartitionInfos := resp.MetaPartitionInfo
    MetaPartitionCount := (resp.MetaPartitionInfo.length : Int)
    Total := resp.Total
    Used := resp.Used
    Ratio :=
      if resp.Total = 0 then Flt.zero64
      else Flt.div binary64 (Flt.ofUInt64 resp.Used) (Flt.ofUInt64 resp.Total)
    MaxMemAvailWeight := (((resp.Total : Int) - (resp.Used : Int)) % 2 ^ 64).toNat
    RackName := resp.RackName
    Threshold := threshold }

/-- `time.Since(t)` at the instant `now`: the difference in nanoseconds, which
`Time.Sub` keeps within the range of a `Duration` (`int64`). -/
def timeSince (now t : Int) : Int :=
  if now - t > 2 ^ 63 - 1 then 2 ^ 63 - 1
  else if now - t < -(2 ^ 63) then -(2 ^ 63)
  else now - t

/-- `checkHeartbeat` at the instant `now`;
`time.Second*time.Duration(defaultNodeTimeOutSec)` is an `int64` number of
nanoseconds. -/
def MetaNode.checkHeartbeat (cfg : Consts) (now : Int) (metaNode : MetaNode) : MetaNode :=
  if timeSince now metaNode.ReportTime > wrapInt64 (1000000000 * cfg.defaultNodeTimeOutSec) then
    { metaNode with IsActive := false }
  else metaNode

/-! ## Predicates and values used to state the properties -/

/-- The groups built so far describe the metas seen so far. -/
structure GroupsOf (arr : List FileCrc) (seen : List FileMetaOnNode) : Prop where
  nodup : (arr.map (fun g => g.crc)).Nodup
  count_eq : ∀ g ∈ arr, g.count = seen.countP (fun fm => fm.Crc == g.crc)
  meta_eq : ∀ g ∈ arr, g.meta = seen.find? (fun fm => fm.Crc == g.crc)
  covers : ∀ fm ∈ seen, ∃ g ∈ arr, g.crc = fm.Crc
  inhabited : ∀ g ∈ arr, ∃ fm ∈ seen, fm.Crc = g.crc

/-- The address `badNode.getLocationAddr()` reads for a group (the empty string
stands for a group without representative, which has no address). -/
def FileCrc.repAddr (g : FileCrc) : String :=
  match g.meta with
  | some fm => fm.getLocationAddr
  | none => ""

/-- The rational value of a finite datum; `none` for the infinities and for
not-a-number. -/
def Flt.toRat? : Flt → Option ℚ
  | .fin neg m e => some ((if neg then -(m : ℚ) else (m : ℚ)) * (2 : ℚ) ^ e)
  | _ => none

/-- The `float64` nearest to the decimal `0.999999` (`0x1.ffffde7210be9p-1`). -/
def Flt.lit0_999999 : Flt := Flt.fin false 9007190247541737 (-53)

/-- The threshold `reachesThreshold` compares with: the constant when the
node's `Threshold <= 0`, the node's `Threshold` otherwise. -/
def MetaNode.effectiveThreshold (defaultMetaPartitionThreshold : Flt) (metaNode : MetaNode) :
    Flt :=
  if Flt.le metaNode.Threshold Flt.zero32 then defaultMetaPartitionThreshold
  else metaNode.Threshold

/-- The ratio `reachesThreshold` compares: `float32(float64(Used)/float64(Total))`. -/
def MetaNode.usedRatio (metaNode : MetaNode) : Flt :=
  Flt.toFloat32 (Flt.div binary64 (Flt.ofUInt64 metaNode.Used) (Flt.ofUInt64 metaNode.Total))

/-! ## Sample data, used to evaluate the model -/

/-- Sample values for the constants that are declared outside the source files. -/
def sampleConsts : Consts :=
  { defaultFileDelayCheckCrcSec := 7200
    checkMissFileReplicaTime := 600
    defaultMetaNodeReservedMem := 2 ^ 30
    defaultMetaPartitionCountOnEachNode := 10000
    defaultNodeTimeOutSec := 180 }

/-- The `float32` value `0.75`, a sample for `defaultMetaPartitionThreshold`. -/
def Flt.lit0_75 : Flt := Flt.fin false 12582912 (-24)

/-- A meta of replica `addr` with checksum `crc` and size `size`. -/
def sampleMeta (addr : String) (crc size : Nat) : FileMetaOnNode :=
  { Crc := crc, LocAddr := addr, locIndex := 0, Size := size }

/-- A sample partition. -/
def samplePartition : DataPartition := { PartitionID := 5, FileInCoreMap := [] }

/-- Live replicas `A`, `B`, `C`. -/
def liveABC : List DataReplica := [⟨"A"⟩, ⟨"B"⟩, ⟨"C"⟩]

/-- Live replicas `A` to `E`. -/
def liveABCDE : List DataReplica := [⟨"A"⟩, ⟨"B"⟩, ⟨"C"⟩, ⟨"D"⟩, ⟨"E"⟩]

/-- A normal extent last modified at time 0 with metas `A:1, B:1, C:2`. -/
def fileTwoAgree : FileInCore :=
  { Name := "17", LastModify := 0
    Metas := [sampleMeta "A" 1 10, sampleMeta "B" 1 10, sampleMeta "C" 2 10] }

/-- A normal extent with metas `A:1, B:2, C:3`. -/
def fileAllDiffer : FileInCore :=
  { Name := "17", LastModify := 0
    Metas := [sampleMeta "A" 1 10, sampleMeta "B" 2 10, sampleMeta "C" 3 10] }

/-- A normal extent with metas `A:1, B:1, C:1`. -/
def fileAllAgree : FileInCore :=
  { Name := "17", LastModify := 0
    Metas := [sampleMeta "A" 1 10, sampleMeta "B" 1 10, sampleMeta "C" 1 10] }

/-- A normal extent with metas `A:1, B:1, C:1, D:2, E:2`. -/
def fileThreeTwo : FileInCore :=
  { Name := "17", LastModify := 0
    Metas := [sampleMeta "A" 1 10, sampleMeta "B" 1 10, sampleMeta "C" 1 10,
      sampleMeta "D" 2 10, sampleMeta "E" 2 10] }

/-- A tiny extent whose three metas differ in checksum and agree in size. -/
def tinySameSize : FileInCore :=
  { Name := "5000001", LastModify := 0
    Metas := [sampleMeta "A" 1 10, sampleMeta "B" 2 10, sampleMeta "C" 3 10] }

/-- A tiny extent whose metas differ in size. -/
def tinySizesDiffer : FileInCore :=
  { Name := "5000001", LastModify := 0
    Metas := [sampleMeta "A" 1 10, sampleMeta "B" 1 11, sampleMeta "C" 1 10] }

/-- A sample meta node: active, 1 TiB of memory of which a little more than
three quarters are used, threshold `0.75`, carry `0.5`. -/
def sampleNode : MetaNode :=
  { ID := 1, Addr := "10.0.0.1:9021", IsActive := true, Sender := 0, RackName := "rack1"
    MaxMemAvailWeight := 2 ^ 38 - 1000, Total := 2 ^ 40, Used := 3 * 2 ^ 38 + 1000
    Ratio := Flt.fin false 0 (-1074), SelectCount := 0, Carry := Flt.fin false (2 ^ 52) (-53)
    Threshold := Flt.lit0_75, ReportTime := 0, metaPartitionInfos := []
    MetaPartitionCount := 0, NodeSetID := 0 }

/-- The sample node with `Threshold` not a number and fifteen sixteenths of the
memory used. -/
def sampleNodeNaN : MetaNode :=
  { sampleNode with Threshold := Flt.nan, Used := 15 * 2 ^ 36, MaxMemAvailWeight := 2 ^ 36 }

/-- The sample node with `Threshold` unset (zero). -/
def sampleNodeUnset : MetaNode := { sampleNode with Threshold := Flt.zero32 }

/-! ## Further predicates and sample data -/

/-- The distinct elements of a list in the order of their first appearance. -/
def distinctInOrder : List Nat → List Nat
  | [] => []
  | x :: xs => x :: (distinctInOrder xs).filter (fun y => y != x)

/-- The kinds of warning of the checker. -/
inductive WarningKind where
  | sizeNotMatch
  | missReplica
  | cannotRepair
  | badCrc
deriving DecidableEq, Repr

/-- The kind of a warning. -/
def Warning.kind : Warning → WarningKind
  | .sizeNotMatch .. => .sizeNotMatch
  | .missReplica .. => .missReplica
  | .cannotRepair .. => .cannotRepair
  | .badCrc .. => .badCrc

/-- The warning with the word of the "can not repair" text replaced by `what`;
the other warnings have no such word. -/
def Warning.withWhat (what : String) : Warning → Warning
  | .cannotRepair c p f _ l => .cannotRepair c p f what l
  | w => w

/-- The run with the word of its "can not repair" warnings replaced by `what`. -/
def Outcome.withWhat (what : String) (o : Outcome) : Outcome :=
  { warns := o.warns.map (Warning.withWhat what), panicked := o.panicked }

/-- Live replicas `A` to `D`. -/
def liveABCD : List DataReplica := [⟨"A"⟩, ⟨"B"⟩, ⟨"C"⟩, ⟨"D"⟩]

/-- A normal extent with metas `A:1, B:1, C:2, D:2`. -/
def fileTie : FileInCore :=
  { Name := "17", LastModify := 0
    Metas := [sampleMeta "A" 1 10, sampleMeta "B" 1 10, sampleMeta "C" 2 10,
      sampleMeta "D" 2 10] }

/-- A normal extent with metas `A:1, B:1` and none for replica `C`. -/
def fileMissingC : FileInCore :=
  { Name := "17", LastModify := 0
    Metas := [sampleMeta "A" 1 10, sampleMeta "B" 1 10] }

/-- A tiny extent for which no replica has reported a meta. -/
def tinyNoMeta : FileInCore := { Name := "5000001", LastModify := 0, Metas := [] }

/-- A record whose name is not a number. -/
def fileBadName : FileInCore :=
  { Name := "extent_17", LastModify := 0
    Metas := [sampleMeta "A" 1 10, sampleMeta "B" 2 10, sampleMeta "C" 3 10] }

/-- A partition whose scan visits `tinyNoMeta` and then `fileAllDiffer`. -/
def partitionTinyFirst : DataPartition :=
  { PartitionID := 5, FileInCoreMap := [tinyNoMeta, fileAllDiffer] }

/-- A sample heartbeat response: 1 TiB of memory, three quarters used, two
partitions. -/
def sampleResp : MetaNodeHeartbeatResponse :=
  { RackName := "rack2", Total := 2 ^ 40, Used := 3 * 2 ^ 38, MetaPartitionInfo := [7, 8] }

/-- A heartbeat response that reports more memory used than there is. -/
def sampleRespOver : MetaNodeHeartbeatResponse :=
  { RackName := "rack2", Total := 10, Used := 11, MetaPartitionInfo := [] }

/-! ## Lemmas: grouping by checksum -/


theorem bumpCount_eq_map (k : Nat) (arr : List FileCrc)
    (hnd : (arr.map (fun g => g.crc)).Nodup) :
    bumpCount k arr =
      arr.map (fun g => if g.crc = k then { g with count := g.count + 1 } else g) := by
  induction arr with
  | nil => rfl
  | cons g gs ih =>
    simp only [List.map_cons, List.nodup_cons, List.mem_map, not_exists, not_and] at hnd
    by_cases hk : g.crc = k
    · have hrest : gs.map (fun g => if g.crc = k then { g with count := g.count + 1 } else g)
          = gs := by
        conv_rhs => rw [← List.map_id gs]
        apply List.map_congr_left
        intro x hx
        have : x.crc ≠ k := by
          intro hxk
          exact hnd.1 x hx (by rw [hxk, hk])
        simp [this]
      simp [bumpCount, hk, hrest]
    · simp [bumpCount, hk, ih hnd.2]

theorem bumpCount_map_crc (k : Nat) (arr : List FileCrc) :
    (bumpCount k arr).map (fun g => g.crc) = arr.map (fun g => g.crc) := by
  induction arr with
  | nil => rfl
  | cons g gs ih =>
    by_cases hk : g.crc = k
    · simp [bumpCount, hk]
    · simp [bumpCount, hk, ih]


theorem GroupsOf.nil : GroupsOf [] [] :=
  ⟨by simp, by simp, by simp, by simp, by simp⟩

theorem GroupsOf.step_found {arr : List FileCrc} {seen : List FileMetaOnNode}
    (h : GroupsOf arr seen) (fm : FileMetaOnNode)
    (hfound : arr.any (fun c => c.crc == fm.getFileCrc) = true) :
    GroupsOf (bumpCount fm.getFileCrc arr) (seen ++ [fm]) := by
  have hmap := bumpCount_eq_map fm.getFileCrc arr h.nodup
  simp only [FileMetaOnNode.getFileCrc] at hmap hfound ⊢
  refine ⟨?_, ?_, ?_, ?_, ?_⟩
  · rw [bumpCount_map_crc]; exact h.nodup
  · intro g' hg'
    rw [hmap, List.mem_map] at hg'
    obtain ⟨g, hg, rfl⟩ := hg'
    by_cases hk : g.crc = fm.Crc
    · rw [if_pos hk]
      show g.count + 1 = _
      rw [List.countP_append, h.count_eq g hg]
      simp [hk]
    · rw [if_neg hk]
      rw [List.countP_append, h.count_eq g hg]
      have hk' : ¬ fm.Crc = g.crc := fun e => hk e.symm
      simp [hk']
  · intro g' hg'
    rw [hmap, List.mem_map] at hg'
    obtain ⟨g, hg, rfl⟩ := hg'
    obtain ⟨fm0, hfm0, hcrc0⟩ := h.inhabited g hg
    have hsome : ∃ x, seen.find? (fun fm => fm.Crc == g.crc) = some x := by
      cases hf : seen.find? (fun fm => fm.Crc == g.crc) with
      | some x => exact ⟨x, rfl⟩
      | none =>
        rw [List.find?_eq_none] at hf
        exact absurd (by simpa using hcrc0) (hf fm0 hfm0)
    obtain ⟨x, hx⟩ := hsome
    have hmeta := h.meta_eq g hg
    have hgoal : g.meta = (seen ++ [fm]).find? (fun y => y.Crc == g.crc) := by
      rw [List.find?_append, hx, hmeta, hx]; rfl
    by_cases hk : g.crc = fm.Crc
    · rw [if_pos hk]; exact hgoal
    · rw [if_neg hk]; exact hgoal
  · intro x hx
    rw [List.mem_append, List.mem_singleton] at hx
    have key : ∀ g ∈ arr, g.crc = x.Crc → ∃ g' ∈ bumpCount fm.Crc arr, g'.crc = x.Crc := by
      intro g hg hgc
      refine ⟨if g.crc = fm.Crc then { g with count := g.count + 1 } else g, ?_, ?_⟩
      · rw [hmap, List.mem_map]; exact ⟨g, hg, rfl⟩
      · by_cases hk : g.crc = fm.Crc
        · rw [if_pos hk]; exact hgc
        · rw [if_neg hk]; exact hgc
    rcases hx with hx | rfl
    · obtain ⟨g, hg, hgc⟩ := h.covers x hx
      exact key g hg hgc
    · rw [List.any_eq_true] at hfound
      obtain ⟨g, hg, hgc⟩ := hfound
      exact key g hg (by simpa using hgc)
  · intro g' hg'
    rw [hmap, List.mem_map] at hg'
    obtain ⟨g, hg, rfl⟩ := hg'
    obtain ⟨fm0, hfm0, hcrc0⟩ := h.inhabited g hg
    refine ⟨fm0, List.mem_append_left _ hfm0, ?_⟩
    by_cases hk : g.crc = fm.Crc
    · rw [if_pos hk]; exact hcrc0
    · rw [if_neg hk]; exact hcrc0

theorem GroupsOf.step_new {arr : List FileCrc} {seen : List FileMetaOnNode}
    (h : GroupsOf arr seen) (fm : FileMetaOnNode)
    (hnew : arr.any (fun c => c.crc == fm.getFileCrc) = false) :
    GroupsOf (arr ++ [{ newFileCrc fm.getFileCrc with meta := some fm }]) (seen ++ [fm]) := by
  simp only [FileMetaOnNode.getFileCrc, newFileCrc] at hnew ⊢
  have hne : ∀ g ∈ arr, g.crc ≠ fm.Crc := by
    intro g hg hgc
    have : arr.any (fun c => c.crc == fm.Crc) = true :=
      List.any_eq_true.mpr ⟨g, hg, by simpa using hgc⟩
    rw [hnew] at this
    exact Bool.noConfusion this
  have hunseen : ∀ y ∈ seen, y.Crc ≠ fm.Crc := by
    intro y hy hyc
    obtain ⟨g, hg, hgc⟩ := h.covers y hy
    exact hne g hg (hgc.trans hyc)
  refine ⟨?_, ?_, ?_, ?_, ?_⟩
  · rw [List.map_append, List.nodup_append]
    refine ⟨h.nodup, by simp, ?_⟩
    intro a ha hb
    simp only [List.map_cons, List.map_nil, List.mem_singleton] at hb
    rw [List.mem_map] at ha
    obtain ⟨g, hg, rfl⟩ := ha
    exact hne g hg hb
  · intro g hg
    rw [List.mem_append, List.mem_singleton] at hg
    rcases hg with hg | rfl
    · rw [List.countP_append, h.count_eq g hg]
      have hk' : ¬ fm.Crc = g.crc := fun e => hne g hg e.symm
      simp [hk']
    · rw [List.countP_append]
      have : seen.countP (fun y => y.Crc == fm.Crc) = 0 := by
        rw [List.countP_eq_zero]
        intro y hy
        simpa using hunseen y hy
      simp [this]
  · intro g hg
    rw [List.mem_append, List.mem_singleton] at hg
    rcases hg with hg | rfl
    · obtain ⟨fm0, hfm0, hcrc0⟩ := h.inhabited g hg
      cases hf : seen.find? (fun fm => fm.Crc == g.crc) with
      | some x => rw [List.find?_append, hf, h.meta_eq g hg, hf]; rfl
      | none =>
        rw [List.find?_eq_none] at hf
        exact absurd (by simpa using hcrc0) (hf fm0 hfm0)
    · have : seen.find? (fun y => y.Crc == fm.Crc) = none := by
        rw [List.find?_eq_none]
        intro y hy
        simpa using hunseen y hy
      rw [List.find?_append, this]
      simp
  · intro x hx
    rw [List.mem_append, List.mem_singleton] at hx
    rcases hx with hx | rfl
    · obtain ⟨g, hg, hgc⟩ := h.covers x hx
      exact ⟨g, List.mem_append_left _ hg, hgc⟩
    · exact ⟨_, List.mem_append_right _ (List.mem_singleton.mpr rfl), rfl⟩
  · intro g hg
    rw [List.mem_append, List.mem_singleton] at hg
    rcases hg with hg | rfl
    · obtain ⟨fm0, hfm0, hcrc0⟩ := h.inhabited g hg
      exact ⟨fm0, List.mem_append_left _ hfm0, hcrc0⟩
    · exact ⟨fm, List.mem_append_right _ (List.mem_singleton.mpr rfl), rfl⟩

theorem calculateCrcCountFrom_groups (rest : List FileMetaOnNode) :
    ∀ (arr : List FileCrc) (seen : List FileMetaOnNode), GroupsOf arr seen →
      GroupsOf (calculateCrcCountFrom arr rest) (seen ++ rest) := by
  induction rest with
  | nil => intro arr seen h; simpa [calculateCrcCountFrom] using h
  | cons fm rest ih =>
    intro arr seen h
    have happ : seen ++ fm :: rest = (seen ++ [fm]) ++ rest := by simp
    rw [happ]
    unfold calculateCrcCountFrom
    by_cases hfound : arr.any (fun c => c.crc == fm.getFileCrc) = true
    · simp only [hfound, if_true]
      exact ih _ _ (h.step_found fm hfound)
    · have hnew : arr.any (fun c => c.crc == fm.getFileCrc) = false := by
        simpa using hfound
      simp only [hnew]
      exact ih _ _ (h.step_new fm hnew)

theorem calculateCrcCount_groups (fms : List FileMetaOnNode) :
    GroupsOf (calculateCrcCount fms) fms := by
  have := calculateCrcCountFrom_groups fms [] [] GroupsOf.nil
  simpa [calculateCrcCount] using this

/-! ## Lemmas: the log, the final loop, the sorted array -/

theorem GroupsOf.meta_some {arr : List FileCrc} {seen : List FileMetaOnNode}
    (h : GroupsOf arr seen) {g : FileCrc} (hg : g ∈ arr) :
    ∃ fm, g.meta = some fm ∧ fm ∈ seen ∧ fm.Crc = g.crc ∧
      seen.find? (fun y => y.Crc == g.crc) = some fm := by
  obtain ⟨fm0, hfm0, hcrc0⟩ := h.inhabited g hg
  cases hf : seen.find? (fun fm => fm.Crc == g.crc) with
  | some x =>
    refine ⟨x, by rw [h.meta_eq g hg, hf], List.mem_of_find?_eq_some hf, ?_, rfl⟩
    simpa using List.find?_some hf
  | none =>
    rw [List.find?_eq_none] at hf
    exact absurd (by simpa using hcrc0) (hf fm0 hfm0)

theorem crcLog_isSome (l : List FileCrc) (h : ∀ g ∈ l, ∃ fm, g.meta = some fm) :
    ∃ L, crcLog l = some L := by
  induction l with
  | nil => exact ⟨[], rfl⟩
  | cons g gs ih =>
    obtain ⟨fm, hfm⟩ := h g (List.mem_cons_self _ _)
    obtain ⟨L, hL⟩ := ih (fun x hx => h x (List.mem_cons_of_mem _ hx))
    exact ⟨{ addr := fm.getLocationAddr, count := g.count, crc := g.crc } :: L,
      by simp [crcLog, hfm, hL]⟩

theorem badCrcLoop_enumFrom (cid : String) (pid : Nat) (file : String) (arr : List FileCrc)
    (L : List CrcLogEntry) (hL : crcLog arr = some L) (maxIdx : Nat) :
    ∀ (l : List FileCrc) (n : Nat) (acc : List Warning),
      (∀ g ∈ l, ∃ fm, g.meta = some fm) → maxIdx = n + l.length - 1 →
      badCrcLoop cid pid file arr maxIdx (l.enumFrom n) acc =
        Outcome.ret (acc ++ l.dropLast.map (fun g => Warning.badCrc cid pid file g.repAddr L)) := by
  intro l
  induction l with
  | nil => intro n acc _ _; simp [badCrcLoop]
  | cons x xs ih =>
    intro n acc hmeta hmax
    obtain ⟨fm, hfm⟩ := hmeta x (List.mem_cons_self _ _)
    have hmeta' : ∀ g ∈ xs, ∃ fm, g.meta = some fm :=
      fun g hg => hmeta g (List.mem_cons_of_mem _ hg)
    cases xs with
    | nil =>
      have : n = maxIdx := by simp at hmax; omega
      simp [List.enumFrom, badCrcLoop, this]
    | cons y ys =>
      have hne : n ≠ maxIdx := by simp at hmax; omega
      have hmax' : maxIdx = (n + 1) + (y :: ys).length - 1 := by simp at hmax ⊢; omega
      have := ih (n + 1) (acc ++ [Warning.badCrc cid pid file fm.getLocationAddr L]) hmeta' hmax'
      rw [List.enumFrom, badCrcLoop]
      simp only [hne, ne_eq, not_false_eq_true, if_true, hfm, hL]
      rw [this]
      simp [List.dropLast, FileCrc.repAddr, hfm]

theorem sorted_concat {srt : List FileCrc → List FileCrc} (hs : SortsByCount srt)
    {G : List FileCrc} (hG : G ≠ []) :
    ∃ init top, srt G = init ++ [top] ∧ (init ++ [top]).Perm G ∧
      (∀ g ∈ G, g.count ≤ top.count) := by
  obtain ⟨hperm, hsorted⟩ := hs G
  rcases List.eq_nil_or_concat (srt G) with hnil | ⟨init, top, hcat⟩
  rotate_left
  · rw [List.concat_eq_append] at hcat
    revert hcat; intro hcat
    refine ⟨init, top, hcat, hcat ▸ hperm, ?_⟩
    intro g hg
    have hg' : g ∈ init ++ [top] := by
      rw [← hcat]; exact hperm.mem_iff.mpr hg
    rw [hcat, List.pairwise_append] at hsorted
    rw [List.mem_append, List.mem_singleton] at hg'
    rcases hg' with hg' | rfl
    · exact hsorted.2.2 g hg' top (List.mem_singleton.mpr rfl)
    · exact le_refl _
  · rw [hnil] at hperm
    exact absurd hperm.symm.eq_nil hG

/-! ## Lemmas: `needCrcRepair` and the shape of a run of `checkExtentFile` -/

theorem needCrcRepair_fst (fc : FileInCore) (live : List DataReplica) :
    (fc.needCrcRepair live).1 = live.filterMap fc.getFileMetaByAddr := by
  unfold FileInCore.needCrcRepair
  cases live.filterMap fc.getFileMetaByAddr <;> rfl

theorem needCrcRepair_snd (fc : FileInCore) (live : List DataReplica) :
    (fc.needCrcRepair live).2 = true ↔
      ∃ fm0, (fc.needCrcRepair live).1.head? = some fm0 ∧
        ∃ fm ∈ (fc.needCrcRepair live).1, fm.Crc ≠ fm0.Crc := by
  unfold FileInCore.needCrcRepair
  cases h : live.filterMap fc.getFileMetaByAddr with
  | nil => simp
  | cons fm0 rest =>
    simp only [List.head?_cons, Option.some.injEq, exists_eq_left', List.any_eq_true,
      FileMetaOnNode.getFileCrc, bne_iff_ne, ne_eq]

theorem collected_addr_unique (fc : FileInCore) (live : List DataReplica)
    {fm fm' : FileMetaOnNode} (h : fm ∈ (fc.needCrcRepair live).1)
    (h' : fm' ∈ (fc.needCrcRepair live).1) (ha : fm'.LocAddr = fm.LocAddr) : fm' = fm := by
  rw [needCrcRepair_fst, List.mem_filterMap] at h h'
  obtain ⟨r, _, hr⟩ := h
  obtain ⟨r', _, hr'⟩ := h'
  unfold FileInCore.getFileMetaByAddr at hr hr'
  have e : fm.LocAddr = r.Addr := by simpa using List.find?_some hr
  have e' : fm'.LocAddr = r'.Addr := by simpa using List.find?_some hr'
  have : r'.Addr = r.Addr := by rw [← e', ← e, ha]
  rw [this, hr] at hr'
  exact (Option.some.inj hr').symm

/-- The run of `checkExtentFile` on an eligible record: the missing-replica
prefix, then nothing, the undecidable warning, or one bad-replica warning for
every group but the last of the sorted array. -/
theorem checkExtentFile_shape {srt : List FileCrc → List FileCrc} (hs : SortsByCount srt)
    (cfg : Consts) (now : Int) (p : DataPartition) (fc : FileInCore)
    (live : List DataReplica) (cid : String) (helig : fc.isCheckCrc cfg now = true) :
    ∃ w1 : List Warning, (∀ w ∈ w1, w.isMissReplica = true) ∧
      (((fc.needCrcRepair live).2 = false ∧
          checkExtentFile srt cfg now p fc live cid = Outcome.ret w1) ∨
       ((fc.needCrcRepair live).2 = true ∧ ∃ init top L,
          srt (calculateCrcCount (fc.needCrcRepair live).1) = init ++ [top] ∧
          (init ++ [top]).Perm (calculateCrcCount (fc.needCrcRepair live).1) ∧
          (∀ g ∈ calculateCrcCount (fc.needCrcRepair live).1, g.count ≤ top.count) ∧
          ((top.count = 1 ∧ checkExtentFile srt cfg now p fc live cid =
              Outcome.ret (w1 ++ [Warning.cannotRepair cid p.PartitionID fc.Name "ExtentOffset" L])) ∨
           (top.count ≠ 1 ∧ checkExtentFile srt cfg now p fc live cid =
              Outcome.ret (w1 ++ init.map
                (fun g => Warning.badCrc cid p.PartitionID fc.Name g.repAddr L)))))) := by
  unfold checkExtentFile
  rcases hnr : fc.needCrcRepair live with ⟨fms, nr⟩
  simp only [helig, Bool.true_eq_false, if_false]
  refine ⟨if fms.length < live.length ∧
      wrapInt64 (now - fc.LastModify) > cfg.checkMissFileReplicaTime then
        [Warning.missReplica cid p.PartitionID fc.Name fc.getFileMetaAddrs
          (live.map (fun replica => replica.Addr))]
      else [], ?_, ?_⟩
  rotate_left
  · cases nr with
    | false => left; exact ⟨rfl, rfl⟩
    | true =>
      right
      refine ⟨rfl, ?_⟩
      have hgr := calculateCrcCount_groups fms
      have hsnd := (needCrcRepair_snd fc live).mp (by rw [hnr])
      obtain ⟨fm0, hhead, -⟩ := hsnd
      rw [hnr] at hhead
      have hfm0 : fm0 ∈ fms := List.mem_of_mem_head? hhead
      obtain ⟨g0, hg0, -⟩ := hgr.covers fm0 hfm0
      have hG : calculateCrcCount fms ≠ [] := List.ne_nil_of_mem hg0
      obtain ⟨init, top, hcat, hperm, hmax⟩ := sorted_concat hs hG
      have hmeta : ∀ g ∈ init ++ [top], ∃ fm, g.meta = some fm := by
        intro g hg
        obtain ⟨fm, hfm, -⟩ := hgr.meta_some (hperm.mem_iff.mp hg)
        exact ⟨fm, hfm⟩
      obtain ⟨L, hL⟩ := crcLog_isSome _ hmeta
      refine ⟨init, top, L, hcat, hperm, hmax, ?_⟩
      have hlast : (init ++ [top]).getLast? = some top := by simp
      simp only [Bool.not_true, Bool.false_eq_true, if_false, hcat, hlast, hL]
      by_cases h1 : top.count = 1
      · left; exact ⟨h1, by simp [h1]⟩
      · right
        refine ⟨h1, ?_⟩
        simp only [h1, if_false]
        have := badCrcLoop_enumFrom cid p.PartitionID fc.Name (init ++ [top]) L hL
          ((init ++ [top]).length - 1) (init ++ [top]) 0
        rw [List.enum, this _ hmeta (by simp)]
        simp
  · intro w hw
    split at hw
    · simp only [List.mem_singleton] at hw
      rw [hw]; rfl
    · simp at hw


theorem GroupsOf.length_eq {arr : List FileCrc} {seen : List FileMetaOnNode}
    (h : GroupsOf arr seen) :
    arr.length = (seen.map (fun fm => fm.Crc)).toFinset.card := by
  have hset : (arr.map (fun g => g.crc)).toFinset = (seen.map (fun fm => fm.Crc)).toFinset := by
    ext x
    simp only [List.mem_toFinset, List.mem_map]
    constructor
    · rintro ⟨g, hg, rfl⟩
      obtain ⟨fm, hfm, hc⟩ := h.inhabited g hg
      exact ⟨fm, hfm, hc⟩
    · rintro ⟨fm, hfm, rfl⟩
      obtain ⟨g, hg, hc⟩ := h.covers fm hfm
      exact ⟨g, hg, hc⟩
  rw [← hset, List.toFinset_card_of_nodup h.nodup, List.length_map]

theorem Warning.not_cannotRepair_of_missReplica {w : Warning} (h : w.isMissReplica = true) :
    w.isCannotRepair = false := by
  cases w <;> simp_all [Warning.isMissReplica, Warning.isCannotRepair]

theorem Warning.not_badCrc_of_missReplica {w : Warning} (h : w.isMissReplica = true) :
    w.isBadCrc = false := by
  cases w <;> simp_all [Warning.isMissReplica, Warning.isBadCrc]

theorem Warning.badAddr_none_of_missReplica {w : Warning} (h : w.isMissReplica = true) :
    w.badAddr? = none := by
  cases w <;> simp_all [Warning.isMissReplica, Warning.badAddr?]

theorem filter_cannotRepair_missReplica {w1 : List Warning}
    (h : ∀ w ∈ w1, w.isMissReplica = true) : w1.filter Warning.isCannotRepair = [] := by
  rw [List.filter_eq_nil_iff]
  intro w hw
  simp [Warning.not_cannotRepair_of_missReplica (h w hw)]

theorem filter_badCrc_missReplica {w1 : List Warning}
    (h : ∀ w ∈ w1, w.isMissReplica = true) : w1.filter Warning.isBadCrc = [] := by
  rw [List.filter_eq_nil_iff]
  intro w hw
  simp [Warning.not_badCrc_of_missReplica (h w hw)]

theorem filter_badCrc_map (cid : String) (pid : Nat) (file : String) (L : List CrcLogEntry)
    (l : List FileCrc) :
    (l.map (fun g => Warning.badCrc cid pid file g.repAddr L)).filter Warning.isBadCrc =
      l.map (fun g => Warning.badCrc cid pid file g.repAddr L) := by
  rw [List.filter_eq_self]
  intro w hw
  rw [List.mem_map] at hw
  obtain ⟨g, -, rfl⟩ := hw
  rfl

theorem filter_cannotRepair_map (cid : String) (pid : Nat) (file : String)
    (L : List CrcLogEntry) (l : List FileCrc) :
    (l.map (fun g => Warning.badCrc cid pid file g.repAddr L)).filter Warning.isCannotRepair =
      [] := by
  rw [List.filter_eq_nil_iff]
  intro w hw
  rw [List.mem_map] at hw
  obtain ⟨g, -, rfl⟩ := hw
  simp [Warning.isCannotRepair]

/-- With a checksum carried by strictly more metas than any other, the last
group of the sorted array is the group of that checksum. -/
theorem top_is_majority {fms : List FileMetaOnNode} {init : List FileCrc} {top : FileCrc}
    (hperm : (init ++ [top]).Perm (calculateCrcCount fms))
    (hmax : ∀ g ∈ calculateCrcCount fms, g.count ≤ top.count) (c : Nat)
    (hpos : 0 < fms.countP (fun fm => fm.Crc == c))
    (hstrict : ∀ c', c' ≠ c →
      fms.countP (fun fm => fm.Crc == c') < fms.countP (fun fm => fm.Crc == c)) :
    top.crc = c ∧ top.count = fms.countP (fun fm => fm.Crc == c) := by
  have hgr := calculateCrcCount_groups fms
  have htop : top ∈ calculateCrcCount fms := hperm.mem_iff.mp (by simp)
  obtain ⟨fm, hfm, hfc⟩ := List.countP_pos_iff.mp hpos
  obtain ⟨gc, hgc, hgcc⟩ := hgr.covers fm hfm
  have hgccrc : gc.crc = c := by rw [hgcc]; simpa using hfc
  have h1 := hmax gc hgc
  rw [hgr.count_eq gc hgc, hgr.count_eq top htop, hgccrc] at h1
  have hcrc : top.crc = c := by
    by_contra hne
    exact absurd (hstrict top.crc hne) (by omega)
  exact ⟨hcrc, by rw [hgr.count_eq top htop, hcrc]⟩

/-- A group of the sorted array other than the last has a representative that
was collected, carries the checksum of the group, and that checksum differs
from the one of the last group. -/
theorem init_group_rep {fms : List FileMetaOnNode} {init : List FileCrc} {top : FileCrc}
    (hperm : (init ++ [top]).Perm (calculateCrcCount fms)) {g : FileCrc} (hg : g ∈ init) :
    g.crc ≠ top.crc ∧ ∃ fm ∈ fms, g.meta = some fm ∧ fm.Crc = g.crc ∧
      fms.find? (fun y => y.Crc == g.crc) = some fm ∧ g.repAddr = fm.LocAddr := by
  have hgr := calculateCrcCount_groups fms
  have hgG : g ∈ calculateCrcCount fms := hperm.mem_iff.mp (List.mem_append_left _ hg)
  have hnd : ((init ++ [top]).map (fun g => g.crc)).Nodup :=
    (List.Perm.map _ hperm).nodup_iff.mpr hgr.nodup
  rw [List.map_append, List.nodup_append] at hnd
  obtain ⟨fm, hmeta, hfm, hcrc, hfind⟩ := hgr.meta_some hgG
  refine ⟨?_, fm, hfm, hmeta, hcrc, hfind, by simp [FileCrc.repAddr, hmeta, FileMetaOnNode.getLocationAddr]⟩
  intro he
  exact hnd.2.2 (List.mem_map.mpr ⟨g, hg, rfl⟩) (by simp [he])

/-! ## Lemmas: the insertion sort -/

theorem insertFromRight_perm (x : FileCrc) (acc : List FileCrc) :
    (insertFromRight x acc).Perm (x :: acc) := by
  induction acc with
  | nil => exact List.Perm.refl _
  | cons y ys ih =>
    unfold insertFromRight
    by_cases h : x.count < y.count
    · rw [if_pos h]
      exact ((List.Perm.cons y ih).trans (List.Perm.swap x y ys))
    · rw [if_neg h]

theorem insertFromRight_sorted (x : FileCrc) (acc : List FileCrc)
    (h : acc.Pairwise (fun a b => b.count ≤ a.count)) :
    (insertFromRight x acc).Pairwise (fun a b => b.count ≤ a.count) := by
  induction acc with
  | nil => simp [insertFromRight]
  | cons y ys ih =>
    unfold insertFromRight
    rw [List.pairwise_cons] at h
    by_cases hlt : x.count < y.count
    · rw [if_pos hlt, List.pairwise_cons]
      refine ⟨?_, ih h.2⟩
      intro z hz
      rcases List.mem_cons.mp ((insertFromRight_perm x ys).mem_iff.mp hz) with rfl | hz'
      · omega
      · exact h.1 z hz'
    · rw [if_neg hlt, List.pairwise_cons, List.pairwise_cons]
      refine ⟨?_, h⟩
      intro z hz
      rcases List.mem_cons.mp hz with rfl | hz'
      · omega
      · have := h.1 z hz'; omega

theorem foldl_insertFromRight (l : List FileCrc) :
    ∀ acc : List FileCrc, acc.Pairwise (fun a b => b.count ≤ a.count) →
      (l.foldl (fun acc x => insertFromRight x acc) acc).Perm (l ++ acc) ∧
      (l.foldl (fun acc x => insertFromRight x acc) acc).Pairwise
        (fun a b => b.count ≤ a.count) := by
  induction l with
  | nil => intro acc h; exact ⟨List.Perm.refl _, h⟩
  | cons x xs ih =>
    intro acc h
    obtain ⟨hp, hsrt⟩ := ih (insertFromRight x acc) (insertFromRight_sorted x acc h)
    refine ⟨?_, hsrt⟩
    refine hp.trans ?_
    refine (List.Perm.append_left xs (insertFromRight_perm x acc)).trans ?_
    simp

/-- The library's insertion sort meets the contract of `sort.Sort`. -/
theorem goInsertionSort_sorts : SortsByCount goInsertionSort := by
  intro l
  obtain ⟨hp, hsrt⟩ := foldl_insertFromRight l [] List.Pairwise.nil
  unfold goInsertionSort
  refine ⟨(List.reverse_perm _).trans (by simpa using hp), ?_⟩
  rw [List.pairwise_reverse]
  exact hsrt

/-! ## Lemmas: records that are not due, records that need no repair -/

theorem isCheckCrc_eq_false_iff (cfg : Consts) (now : Int) (fc : FileInCore) :
    fc.isCheckCrc cfg now = false ↔
      wrapInt64 (now - fc.LastModify) ≤ cfg.defaultFileDelayCheckCrcSec := by
  simp [FileInCore.isCheckCrc]

theorem checkExtentFile_not_due (srt : List FileCrc → List FileCrc) (cfg : Consts) (now : Int)
    (p : DataPartition) (fc : FileInCore) (live : List DataReplica) (cid : String)
    (h : fc.isCheckCrc cfg now = false) :
    checkExtentFile srt cfg now p fc live cid = Outcome.ret [] := by
  simp [checkExtentFile, h]

theorem checkChunkFile_not_due (cfg : Consts) (now : Int)
    (p : DataPartition) (fc : FileInCore) (live : List DataReplica) (cid : String)
    (h : fc.isCheckCrc cfg now = false) :
    checkChunkFile cfg now p fc live cid = Outcome.ret [] := by
  simp [checkChunkFile, h]

theorem generateFileCrcTask_not_due (srt : List FileCrc → List FileCrc) (cfg : Consts)
    (now : Int) (fc : FileInCore) (pid : Nat) (live : List DataReplica) (cid : String)
    (h : fc.isCheckCrc cfg now = false) :
    fc.generateFileCrcTask srt cfg now pid live cid = ([], Outcome.ret []) := by
  simp [FileInCore.generateFileCrcTask, h]

/-- When `needCrcRepair` reports no repair, `checkExtentFile` returns normally
after at most the missing-replica warning, whatever the sorting function. -/
theorem checkExtentFile_no_repair (srt : List FileCrc → List FileCrc) (cfg : Consts)
    (now : Int) (p : DataPartition) (fc : FileInCore) (live : List DataReplica)
    (cid : String) (hnr : (fc.needCrcRepair live).2 = false) :
    ∃ w1 : List Warning, (∀ w ∈ w1, w.isMissReplica = true) ∧
      checkExtentFile srt cfg now p fc live cid = Outcome.ret w1 := by
  by_cases helig : fc.isCheckCrc cfg now = true
  · unfold checkExtentFile
    rcases hnr' : fc.needCrcRepair live with ⟨fms, nr⟩
    rw [hnr'] at hnr
    simp only at hnr
    subst hnr
    simp only [helig, Bool.true_eq_false, if_false, Bool.not_false, if_true]
    refine ⟨_, ?_, rfl⟩
    intro w hw
    split at hw
    · simp only [List.mem_singleton] at hw
      rw [hw]; rfl
    · simp at hw
  · have hf : fc.isCheckCrc cfg now = false := by simpa using helig
    exact ⟨[], by simp, checkExtentFile_not_due srt cfg now p fc live cid hf⟩


/-! ## Lemmas: comparisons of floating-point data, `isWriteAble` -/

set_option maxRecDepth 4000 in
/-- Known values: `float64(2^53 + 1)` is `2^53` (a tie, to even), `1/3` in
`float64` is `0x3FD5555555555555`, in `float32` `0x3EAAAAAB`, and `0.1 - 1.0`
in `float64` is `-0.9` (`0xBFECCCCCCCCCCCCD`). -/
theorem Flt.known_values :
    Flt.ofUInt64 (2 ^ 53 + 1) = Flt.fin false (2 ^ 52) 1 ∧
    Flt.div binary64 (Flt.ofUInt64 1) (Flt.ofUInt64 3) = Flt.fin false 0x15555555555555 (-54) ∧
    Flt.toFloat32 (Flt.div binary64 (Flt.ofUInt64 1) (Flt.ofUInt64 3)) =
      Flt.fin false 0xAAAAAB (-25) ∧
    Flt.sub binary64 (Flt.fin false 0x1999999999999A (-56)) Flt.one64 =
      Flt.fin true 0x1CCCCCCCCCCCCD (-53) := by
  refine ⟨by decide, by decide, by decide, by decide⟩

theorem Flt.scaled_cast (k : Int) (neg : Bool) (m : Nat) (e : Int) (hk : k ≤ e) :
    ((Flt.scaled k neg m e : Int) : ℚ) =
      ((if neg then -(m : ℚ) else (m : ℚ)) * (2 : ℚ) ^ e) / (2 : ℚ) ^ k := by
  have hpow : ((2 : ℚ) ^ (e - k).toNat) = (2 : ℚ) ^ e / (2 : ℚ) ^ k := by
    rw [← zpow_natCast, Int.toNat_of_nonneg (by omega), zpow_sub₀ (by norm_num)]
  unfold Flt.scaled
  cases neg
  · simp only [Bool.false_eq_true, if_false]
    push_cast
    rw [hpow]; ring
  · simp only [if_true]
    push_cast
    rw [hpow]; ring

theorem Flt.le_fin_iff (na : Bool) (ma : Nat) (ea : Int) (nb : Bool) (mb : Nat) (eb : Int) :
    Flt.le (.fin na ma ea) (.fin nb mb eb) = true ↔
      (if na then -(ma : ℚ) else (ma : ℚ)) * (2 : ℚ) ^ ea ≤
        (if nb then -(mb : ℚ) else (mb : ℚ)) * (2 : ℚ) ^ eb := by
  have hpos : (0 : ℚ) < (2 : ℚ) ^ (min ea eb) := zpow_pos (by norm_num) _
  simp only [Flt.le, decide_eq_true_eq]
  rw [← @Int.cast_le ℚ, Flt.scaled_cast _ _ _ _ (min_le_left _ _),
    Flt.scaled_cast _ _ _ _ (min_le_right _ _), div_le_div_iff_of_pos_right hpos]

theorem Flt.lt_fin_iff (na : Bool) (ma : Nat) (ea : Int) (nb : Bool) (mb : Nat) (eb : Int) :
    Flt.lt (.fin na ma ea) (.fin nb mb eb) = true ↔
      (if na then -(ma : ℚ) else (ma : ℚ)) * (2 : ℚ) ^ ea <
        (if nb then -(mb : ℚ) else (mb : ℚ)) * (2 : ℚ) ^ eb := by
  have hpos : (0 : ℚ) < (2 : ℚ) ^ (min ea eb) := zpow_pos (by norm_num) _
  simp only [Flt.lt, decide_eq_true_eq]
  rw [← @Int.cast_lt ℚ, Flt.scaled_cast _ _ _ _ (min_le_left _ _),
    Flt.scaled_cast _ _ _ _ (min_le_right _ _), div_lt_div_iff_of_pos_right hpos]

theorem Flt.one64_toRat : Flt.one64.toRat? = some 1 := by
  simp only [Flt.one64, Flt.toRat?, Bool.false_eq_true, if_false]
  norm_num

/-- The comparison `x >= 1.0` holds for plus infinity and for the finite values
that are at least one. -/
theorem Flt.ge_one64_iff (x : Flt) :
    Flt.ge x Flt.one64 = true ↔ x = Flt.inf false ∨ ∃ q, x.toRat? = some q ∧ 1 ≤ q := by
  cases x with
  | nan => simp [Flt.ge, Flt.le, Flt.one64, Flt.toRat?]
  | inf neg => cases neg <;> simp [Flt.ge, Flt.le, Flt.one64, Flt.toRat?]
  | fin neg m e =>
    unfold Flt.ge Flt.one64
    rw [Flt.le_fin_iff]
    have h1 : ((2 ^ 52 : ℕ) : ℚ) * (2 : ℚ) ^ (-52 : ℤ) = 1 := by norm_num
    simp only [Flt.toRat?, Bool.false_eq_true, if_false, Option.some.injEq, exists_eq_left',
      h1]
    constructor
    · intro h; exact Or.inr h
    · rintro (h | h)
      · exact Flt.noConfusion h
      · exact h

theorem reachesThreshold_eq (d : Flt) (n : MetaNode) :
    n.reachesThreshold d =
      (Flt.gt n.usedRatio (n.effectiveThreshold d),
        if Flt.le n.Threshold Flt.zero32 = true then { n with Threshold := d } else n) := by
  unfold MetaNode.reachesThreshold MetaNode.usedRatio MetaNode.effectiveThreshold
  cases h2 : Flt.le n.Threshold Flt.zero32
  · simp only [Bool.false_eq_true, if_false]
  · simp only [if_true]

theorem isWriteAble_eq (cfg : Consts) (d : Flt) (n : MetaNode) :
    n.isWriteAble cfg d =
      if (n.IsActive && decide (n.MaxMemAvailWeight > cfg.defaultMetaNodeReservedMem)) = true then
        (!Flt.gt n.usedRatio (n.effectiveThreshold d) &&
            decide (n.MetaPartitionCount < cfg.defaultMetaPartitionCountOnEachNode),
          if Flt.le n.Threshold Flt.zero32 = true then { n with Threshold := d } else n)
      else (false, n) := by
  unfold MetaNode.isWriteAble
  rw [reachesThreshold_eq]
  by_cases h1 : (n.IsActive && decide (n.MaxMemAvailWeight > cfg.defaultMetaNodeReservedMem)) = true
  · simp only [h1, if_true]
    have hcount : (if Flt.le n.Threshold Flt.zero32 = true then { n with Threshold := d }
        else n).MetaPartitionCount = n.MetaPartitionCount := by
      split <;> rfl
    rw [hcount]
    by_cases h3 : (!Flt.gt n.usedRatio (n.effectiveThreshold d) &&
        decide (n.MetaPartitionCount < cfg.defaultMetaPartitionCountOnEachNode)) = true
    · rw [if_pos h3, h3]
    · rw [if_neg h3]
      have h3' : (!Flt.gt n.usedRatio (n.effectiveThreshold d) &&
          decide (n.MetaPartitionCount < cfg.defaultMetaPartitionCountOnEachNode)) = false := by
        simpa using h3
      rw [h3']
  · rw [if_neg h1, if_neg h1]

theorem isWriteAble_fst (cfg : Consts) (d : Flt) (n : MetaNode) :
    (n.isWriteAble cfg d).1 =
      (n.IsActive && decide (n.MaxMemAvailWeight > cfg.defaultMetaNodeReservedMem) &&
        !Flt.gt n.usedRatio (n.effectiveThreshold d) &&
        decide (n.MetaPartitionCount < cfg.defaultMetaPartitionCountOnEachNode)) := by
  rw [isWriteAble_eq]
  by_cases h1 : (n.IsActive && decide (n.MaxMemAvailWeight > cfg.defaultMetaNodeReservedMem)) = true
  · rw [if_pos h1, h1, Bool.true_and]
  · have h1' : (n.IsActive && decide (n.MaxMemAvailWeight > cfg.defaultMetaNodeReservedMem)) = false := by
      simpa using h1
    rw [if_neg h1, h1']
    rfl

/-- The node as `isWriteAble` leaves it: `Threshold` is overwritten with the
constant when the first two conditions hold and `Threshold <= 0`; nothing else
changes. -/
theorem isWriteAble_snd (cfg : Consts) (d : Flt) (n : MetaNode) :
    (n.isWriteAble cfg d).2 =
      if (n.IsActive && decide (n.MaxMemAvailWeight > cfg.defaultMetaNodeReservedMem) &&
          Flt.le n.Threshold Flt.zero32) = true then
        { n with Threshold := d }
      else n := by
  rw [isWriteAble_eq]
  by_cases h1 : (n.IsActive && decide (n.MaxMemAvailWeight > cfg.defaultMetaNodeReservedMem)) = true
  · rw [if_pos h1, h1, Bool.true_and]
  · have h1' : (n.IsActive && decide (n.MaxMemAvailWeight > cfg.defaultMetaNodeReservedMem)) = false := by
      simpa using h1
    rw [if_neg h1, h1']
    rfl

theorem Flt.le_eq_not_lt (a b : Flt) (ha : a ≠ Flt.nan) (hb : b ≠ Flt.nan) :
    Flt.le a b = !Flt.lt b a := by
  cases a with
  | nan => exact absurd rfl ha
  | inf na =>
    cases b with
    | nan => exact absurd rfl hb
    | inf nb => cases na <;> cases nb <;> rfl
    | fin nb mb eb => cases na <;> rfl
  | fin na ma ea =>
    cases b with
    | nan => exact absurd rfl hb
    | inf nb => cases nb <;> rfl
    | fin nb mb eb =>
      simp only [Flt.le, Flt.lt, min_comm eb ea]
      by_cases h : Flt.scaled (min ea eb) na ma ea ≤ Flt.scaled (min ea eb) nb mb eb
      · simp [h, not_lt.mpr h]
      · simp [h, not_le.mp h]


/-! ## Lemmas: the sample records -/

theorem collected_fileTwoAgree :
    (fileTwoAgree.needCrcRepair liveABC).1 =
      [sampleMeta "A" 1 10, sampleMeta "B" 1 10, sampleMeta "C" 2 10] := by
  decide

theorem collected_fileThreeTwo :
    (fileThreeTwo.needCrcRepair liveABCDE).1 =
      [sampleMeta "A" 1 10, sampleMeta "B" 1 10, sampleMeta "C" 1 10,
        sampleMeta "D" 2 10, sampleMeta "E" 2 10] := by
  decide

theorem strict_majority_fileTwoAgree : ∀ c', c' ≠ 1 →
    (fileTwoAgree.needCrcRepair liveABC).1.countP (fun fm => fm.Crc == c') <
      (fileTwoAgree.needCrcRepair liveABC).1.countP (fun fm => fm.Crc == 1) := by
  intro c' hc'
  rw [collected_fileTwoAgree]
  have h1 : ¬ (1 = c') := fun e => hc' e.symm
  simp only [List.countP_cons, List.countP_nil, sampleMeta, beq_iff_eq, h1, if_false]
  split <;> simp

theorem strict_majority_fileThreeTwo : ∀ c', c' ≠ 1 →
    (fileThreeTwo.needCrcRepair liveABCDE).1.countP (fun fm => fm.Crc == c') <
      (fileThreeTwo.needCrcRepair liveABCDE).1.countP (fun fm => fm.Crc == 1) := by
  intro c' hc'
  rw [collected_fileThreeTwo]
  have h1 : ¬ (1 = c') := fun e => hc' e.symm
  simp only [List.countP_cons, List.countP_nil, sampleMeta, beq_iff_eq, h1, if_false]
  split <;> simp


/-! ## The checker: claims C1 to C6 -/

/-- C1. For an eligible normal-extent record whose collected metas have a
checksum `c` carried by at least two metas and by strictly more metas than any
other checksum, `checkExtentFile` returns normally, emits no "can not repair"
warning, emits exactly (number of distinct checksums - 1) bad-replica warnings,
and no bad-replica warning names the address of a collected meta whose checksum
is `c`. -/
theorem checkExtentFile_majority {srt : List FileCrc → List FileCrc}
    (hs : SortsByCount srt) (cfg : Consts) (now : Int) (p : DataPartition)
    (fc : FileInCore) (live : List DataReplica) (cid : String)
    (helig : fc.isCheckCrc cfg now = true) (c : Nat)
    (hmaj : 2 ≤ (fc.needCrcRepair live).1.countP (fun fm => fm.Crc == c))
    (hstrict : ∀ c', c' ≠ c →
      (fc.needCrcRepair live).1.countP (fun fm => fm.Crc == c') <
        (fc.needCrcRepair live).1.countP (fun fm => fm.Crc == c)) :
    (checkExtentFile srt cfg now p fc live cid).panicked = false ∧
    (checkExtentFile srt cfg now p fc live cid).warns.filter Warning.isCannotRepair = [] ∧
    ((checkExtentFile srt cfg now p fc live cid).warns.filter Warning.isBadCrc).length =
      ((fc.needCrcRepair live).1.map (fun fm => fm.Crc)).toFinset.card - 1 ∧
    ∀ w ∈ (checkExtentFile srt cfg now p fc live cid).warns, ∀ a, w.badAddr? = some a →
      ∀ fm ∈ (fc.needCrcRepair live).1, fm.LocAddr = a → fm.Crc ≠ c := by
  obtain ⟨w1, hw1, hcase⟩ := checkExtentFile_shape hs cfg now p fc live cid helig
  rcases hcase with ⟨hnr, hout⟩ | ⟨hnr, init, top, L, hcat, hperm, hmax, hsub⟩
  · rw [hout]
    refine ⟨rfl, filter_cannotRepair_missReplica hw1, ?_, ?_⟩
    · show (w1.filter Warning.isBadCrc).length = _
      rw [filter_badCrc_missReplica hw1]
      have hall : ∀ fm ∈ (fc.needCrcRepair live).1, ∀ fm0,
          (fc.needCrcRepair live).1.head? = some fm0 → fm.Crc = fm0.Crc := by
        intro fm hfm fm0 hhead
        by_contra hne
        have := (needCrcRepair_snd fc live).mpr ⟨fm0, hhead, fm, hfm, hne⟩
        rw [hnr] at this
        exact Bool.noConfusion this
      have hcard : ((fc.needCrcRepair live).1.map (fun fm => fm.Crc)).toFinset.card ≤ 1 := by
        rw [Finset.card_le_one]
        intro a ha b hb
        simp only [List.mem_toFinset, List.mem_map] at ha hb
        obtain ⟨x, hx, rfl⟩ := ha
        obtain ⟨y, hy, rfl⟩ := hb
        cases hh : (fc.needCrcRepair live).1.head? with
        | none =>
          rw [List.head?_eq_none_iff] at hh
          rw [hh] at hx
          exact absurd hx (List.not_mem_nil _)
        | some fm0 => rw [hall x hx fm0 hh, hall y hy fm0 hh]
      simp only [List.length_nil]
      omega
    · intro w hw a ha
      rw [Warning.badAddr_none_of_missReplica (hw1 w hw)] at ha
      exact Option.noConfusion ha
  · have hgr := calculateCrcCount_groups (fc.needCrcRepair live).1
    obtain ⟨htopcrc, htopcount⟩ := top_is_majority hperm hmax c (by omega) hstrict
    rcases hsub with ⟨h1, -⟩ | ⟨-, hout⟩
    · omega
    · rw [hout]
      refine ⟨rfl, ?_, ?_, ?_⟩
      · show ((w1 ++ _).filter Warning.isCannotRepair) = []
        rw [List.filter_append, filter_cannotRepair_missReplica hw1, filter_cannotRepair_map]
        rfl
      · show ((w1 ++ _).filter Warning.isBadCrc).length = _
        rw [List.filter_append, filter_badCrc_missReplica hw1, filter_badCrc_map]
        have hlen := hperm.length_eq
        rw [hgr.length_eq] at hlen
        simp only [List.nil_append, List.length_map]
        simp only [List.length_append, List.length_singleton] at hlen
        omega
      · intro w hw a ha fm hfm hfa
        change w ∈ w1 ++ _ at hw
        rw [List.mem_append] at hw
        rcases hw with hw | hw
        · rw [Warning.badAddr_none_of_missReplica (hw1 w hw)] at ha
          exact Option.noConfusion ha
        · rw [List.mem_map] at hw
          obtain ⟨g, hg, rfl⟩ := hw
          obtain ⟨hne, rep, hrep, -, hrepcrc, -, haddr⟩ := init_group_rep hperm hg
          simp only [Warning.badAddr?, Option.some.injEq] at ha
          have hsame : fm = rep :=
            collected_addr_unique fc live hrep hfm (by rw [hfa, ← ha, haddr])
          rw [hsame, hrepcrc, ← htopcrc]
          exact hne

/-- C1, at metas `A:1, B:1, C:2`: the record is a normal extent and is due, the
only warning is the bad-replica warning that names `C`, and the theorem applies
with majority checksum 1. -/
theorem checkExtentFile_majority_witness :
    (parseUint64 fileTwoAgree.Name).map isTinyExtent = some false ∧
    fileTwoAgree.isCheckCrc sampleConsts 100000 = true ∧
    (checkExtentFile goInsertionSort sampleConsts 100000 samplePartition fileTwoAgree
        liveABC "c1").warns =
      [Warning.badCrc "c1" 5 "17" "C" [⟨"C", 1, 2⟩, ⟨"A", 2, 1⟩]] ∧
    ((checkExtentFile goInsertionSort sampleConsts 100000 samplePartition fileTwoAgree
        liveABC "c1").warns.filter Warning.isBadCrc).length =
      ((fileTwoAgree.needCrcRepair liveABC).1.map (fun fm => fm.Crc)).toFinset.card - 1 ∧
    ∀ w ∈ (checkExtentFile goInsertionSort sampleConsts 100000 samplePartition fileTwoAgree
        liveABC "c1").warns, ∀ a, w.badAddr? = some a →
      ∀ fm ∈ (fileTwoAgree.needCrcRepair liveABC).1, fm.LocAddr = a → fm.Crc ≠ 1 :=
  ⟨by decide, by decide, by decide,
    (checkExtentFile_majority goInsertionSort_sorts sampleConsts 100000 samplePartition
      fileTwoAgree liveABC "c1" (by decide) 1 (by decide) strict_majority_fileTwoAgree).2.2⟩

/-- C2 fails as stated: with metas `A:1, B:1, C:1, D:2, E:2` the record is due,
checksum 1 is carried by three metas and checksum 2 by two, replica `E` was
collected with checksum 2, and the only warning names `D`: no warning names
`E`. -/
theorem checkExtentFile_second_member_not_named :
    fileThreeTwo.isCheckCrc sampleConsts 100000 = true ∧
    (fileThreeTwo.needCrcRepair liveABCDE).1.countP (fun fm => fm.Crc == 1) = 3 ∧
    (fileThreeTwo.needCrcRepair liveABCDE).1.countP (fun fm => fm.Crc == 2) = 2 ∧
    sampleMeta "E" 2 10 ∈ (fileThreeTwo.needCrcRepair liveABCDE).1 ∧
    (checkExtentFile goInsertionSort sampleConsts 100000 samplePartition fileThreeTwo
        liveABCDE "c1").warns.map Warning.badAddr? = [some "D"] ∧
    ¬ ∃ w ∈ (checkExtentFile goInsertionSort sampleConsts 100000 samplePartition fileThreeTwo
        liveABCDE "c1").warns, w.badAddr? = some "E" := by
  refine ⟨by decide, by decide, by decide, by decide, by decide, by decide⟩

/-- C2 (amended). For an eligible normal-extent record whose collected metas
have a most frequent checksum `c` carried by at least two metas, there is a
canonical checksum, carried by as many metas as `c` and equal to `c` when `c` is
carried by strictly more metas than any other checksum, such that: for every
collected meta whose checksum is not the canonical one, the first collected
meta with the same checksum is named by a bad-replica warning; and every
address a bad-replica warning names is the address of the first collected meta
of a checksum other than the canonical one. -/
theorem checkExtentFile_names_group_representatives {srt : List FileCrc → List FileCrc}
    (hs : SortsByCount srt) (cfg : Consts) (now : Int) (p : DataPartition)
    (fc : FileInCore) (live : List DataReplica) (cid : String)
    (helig : fc.isCheckCrc cfg now = true) (c : Nat)
    (hmaj : 2 ≤ (fc.needCrcRepair live).1.countP (fun fm => fm.Crc == c))
    (hmost : ∀ c',
      (fc.needCrcRepair live).1.countP (fun fm => fm.Crc == c') ≤
        (fc.needCrcRepair live).1.countP (fun fm => fm.Crc == c)) :
    ∃ canon : Nat,
      (fc.needCrcRepair live).1.countP (fun fm => fm.Crc == canon) =
        (fc.needCrcRepair live).1.countP (fun fm => fm.Crc == c) ∧
      ((∀ c', c' ≠ c →
          (fc.needCrcRepair live).1.countP (fun fm => fm.Crc == c') <
            (fc.needCrcRepair live).1.countP (fun fm => fm.Crc == c)) → canon = c) ∧
      (∀ fm ∈ (fc.needCrcRepair live).1, fm.Crc ≠ canon →
        ∃ rep, (fc.needCrcRepair live).1.find? (fun y => y.Crc == fm.Crc) = some rep ∧
          ∃ w ∈ (checkExtentFile srt cfg now p fc live cid).warns,
            w.isBadCrc = true ∧ w.badAddr? = some rep.LocAddr) ∧
      (∀ w ∈ (checkExtentFile srt cfg now p fc live cid).warns, ∀ a, w.badAddr? = some a →
        ∃ rep, rep.Crc ≠ canon ∧ rep.LocAddr = a ∧
          (fc.needCrcRepair live).1.find? (fun y => y.Crc == rep.Crc) = some rep) := by
  obtain ⟨w1, hw1, hcase⟩ := checkExtentFile_shape hs cfg now p fc live cid helig
  rcases hcase with ⟨hnr, hout⟩ | ⟨hnr, init, top, L, hcat, hperm, hmax, hsub⟩
  · rw [hout]
    refine ⟨c, rfl, fun _ => rfl, ?_, ?_⟩
    · intro fm hfm hne
      exfalso
      obtain ⟨x, hx, hxc⟩ := List.countP_pos_iff.mp (show 0 <
        (fc.needCrcRepair live).1.countP (fun fm => fm.Crc == c) by omega)
      have hxc' : x.Crc = c := by simpa using hxc
      cases hh : (fc.needCrcRepair live).1.head? with
      | none =>
        rw [List.head?_eq_none_iff] at hh
        rw [hh] at hx
        exact absurd hx (List.not_mem_nil _)
      | some fm0 =>
        have hall : ∀ y ∈ (fc.needCrcRepair live).1, y.Crc = fm0.Crc := by
          intro y hy
          by_contra hne'
          have := (needCrcRepair_snd fc live).mpr ⟨fm0, hh, y, hy, hne'⟩
          rw [hnr] at this
          exact Bool.noConfusion this
        exact hne (by rw [hall fm hfm, ← hall x hx, hxc'])
    · intro w hw a ha
      rw [Warning.badAddr_none_of_missReplica (hw1 w hw)] at ha
      exact Option.noConfusion ha
  · have hgr := calculateCrcCount_groups (fc.needCrcRepair live).1
    have htop : top ∈ calculateCrcCount (fc.needCrcRepair live).1 :=
      hperm.mem_iff.mp (by simp)
    obtain ⟨x, hx, hxc⟩ := List.countP_pos_iff.mp (show 0 <
      (fc.needCrcRepair live).1.countP (fun fm => fm.Crc == c) by omega)
    obtain ⟨gc, hgc, hgcc⟩ := hgr.covers x hx
    have hgccrc : gc.crc = c := by rw [hgcc]; simpa using hxc
    have hge := hmax gc hgc
    rw [hgr.count_eq gc hgc, hgccrc] at hge
    have htopcount := hgr.count_eq top htop
    have hle := hmost top.crc
    have hcanon : (fc.needCrcRepair live).1.countP (fun fm => fm.Crc == top.crc) =
        (fc.needCrcRepair live).1.countP (fun fm => fm.Crc == c) := by omega
    rcases hsub with ⟨h1, -⟩ | ⟨-, hout⟩
    · omega
    · rw [hout]
      refine ⟨top.crc, hcanon, ?_, ?_, ?_⟩
      · intro hstrict
        by_contra hne
        exact absurd (hstrict top.crc hne) (by omega)
      · intro fm hfm hne
        obtain ⟨g, hg, hgc'⟩ := hgr.covers fm hfm
        have hg' : g ∈ init ++ [top] := hperm.mem_iff.mpr hg
        rw [List.mem_append, List.mem_singleton] at hg'
        rcases hg' with hgi | rfl
        · obtain ⟨-, rep, -, -, -, hfind, haddr⟩ := init_group_rep hperm hgi
          refine ⟨rep, by rw [← hgc']; exact hfind, ?_⟩
          refine ⟨Warning.badCrc cid p.PartitionID fc.Name g.repAddr L, ?_, rfl, ?_⟩
          · exact List.mem_append_right _ (List.mem_map.mpr ⟨g, hgi, rfl⟩)
          · simp [Warning.badAddr?, haddr]
        · exact absurd hgc'.symm hne
      · intro w hw a ha
        change w ∈ w1 ++ _ at hw
        rw [List.mem_append] at hw
        rcases hw with hw | hw
        · rw [Warning.badAddr_none_of_missReplica (hw1 w hw)] at ha
          exact Option.noConfusion ha
        · rw [List.mem_map] at hw
          obtain ⟨g, hg, rfl⟩ := hw
          obtain ⟨hne, rep, -, -, hrepcrc, hfind, haddr⟩ := init_group_rep hperm hg
          simp only [Warning.badAddr?, Option.some.injEq] at ha
          refine ⟨rep, ?_, by rw [← haddr, ha], by rw [hrepcrc]; exact hfind⟩
          rw [hrepcrc]
          exact hne

/-- C2 (amended), at metas `A:1, B:1, C:1, D:2, E:2`: checksum 1 is the most
frequent, the first collected meta with checksum 2 is the one of `D`. -/
theorem checkExtentFile_names_group_representatives_witness :
    (∃ canon : Nat,
      (fileThreeTwo.needCrcRepair liveABCDE).1.countP (fun fm => fm.Crc == canon) =
        (fileThreeTwo.needCrcRepair liveABCDE).1.countP (fun fm => fm.Crc == 1) ∧
      ((∀ c', c' ≠ 1 →
          (fileThreeTwo.needCrcRepair liveABCDE).1.countP (fun fm => fm.Crc == c') <
            (fileThreeTwo.needCrcRepair liveABCDE).1.countP (fun fm => fm.Crc == 1)) →
        canon = 1) ∧
      (∀ fm ∈ (fileThreeTwo.needCrcRepair liveABCDE).1, fm.Crc ≠ canon →
        ∃ rep, (fileThreeTwo.needCrcRepair liveABCDE).1.find? (fun y => y.Crc == fm.Crc) =
            some rep ∧
          ∃ w ∈ (checkExtentFile goInsertionSort sampleConsts 100000 samplePartition
              fileThreeTwo liveABCDE "c1").warns,
            w.isBadCrc = true ∧ w.badAddr? = some rep.LocAddr) ∧
      (∀ w ∈ (checkExtentFile goInsertionSort sampleConsts 100000 samplePartition
          fileThreeTwo liveABCDE "c1").warns, ∀ a, w.badAddr? = some a →
        ∃ rep, rep.Crc ≠ canon ∧ rep.LocAddr = a ∧
          (fileThreeTwo.needCrcRepair liveABCDE).1.find? (fun y => y.Crc == rep.Crc) =
            some rep)) ∧
    (fileThreeTwo.needCrcRepair liveABCDE).1.find? (fun y => y.Crc == 2) =
      some (sampleMeta "D" 2 10) :=
  ⟨checkExtentFile_names_group_representatives goInsertionSort_sorts sampleConsts 100000
      samplePartition fileThreeTwo liveABCDE "c1" (by decide) 1 (by decide)
      (fun c' => by
        by_cases h : c' = 1
        · rw [h]
        · exact Nat.le_of_lt (strict_majority_fileThreeTwo c' h)),
    by decide⟩

/-- C3. For an eligible normal-extent record with at least two collected metas
whose checksums are pairwise distinct, `checkExtentFile` returns normally,
emits exactly one "can not repair" warning and no bad-replica warning. -/
theorem checkExtentFile_all_distinct {srt : List FileCrc → List FileCrc}
    (hs : SortsByCount srt) (cfg : Consts) (now : Int) (p : DataPartition)
    (fc : FileInCore) (live : List DataReplica) (cid : String)
    (helig : fc.isCheckCrc cfg now = true)
    (hlen : 2 ≤ (fc.needCrcRepair live).1.length)
    (hdistinct : ((fc.needCrcRepair live).1.map (fun fm => fm.Crc)).Nodup) :
    (checkExtentFile srt cfg now p fc live cid).panicked = false ∧
    ((checkExtentFile srt cfg now p fc live cid).warns.filter Warning.isCannotRepair).length = 1 ∧
    (checkExtentFile srt cfg now p fc live cid).warns.filter Warning.isBadCrc = [] ∧
    ∀ w ∈ (checkExtentFile srt cfg now p fc live cid).warns, w.badAddr? = none := by
  obtain ⟨w1, hw1, hcase⟩ := checkExtentFile_shape hs cfg now p fc live cid helig
  have hcount : ∀ k, (fc.needCrcRepair live).1.countP (fun fm => fm.Crc == k) ≤ 1 := by
    intro k
    have h1 := List.nodup_iff_count_le_one.mp hdistinct k
    rw [List.count, List.countP_map] at h1
    exact h1
  rcases hcase with ⟨hnr, hout⟩ | ⟨hnr, init, top, L, hcat, hperm, hmax, hsub⟩
  · exfalso
    rcases hl : (fc.needCrcRepair live).1 with _ | ⟨a, _ | ⟨b, t⟩⟩
    · rw [hl] at hlen; simp at hlen
    · rw [hl] at hlen; simp at hlen
    · rw [hl] at hdistinct
      have hab : b.Crc ≠ a.Crc := by
        simp only [List.map_cons, List.nodup_cons, List.mem_cons, not_or] at hdistinct
        exact fun e => hdistinct.1.1 e.symm
      have := (needCrcRepair_snd fc live).mpr
        ⟨a, by rw [hl]; rfl, b, by rw [hl]; simp, hab⟩
      rw [hnr] at this
      exact Bool.noConfusion this
  · have hgr := calculateCrcCount_groups (fc.needCrcRepair live).1
    have htop : top ∈ calculateCrcCount (fc.needCrcRepair live).1 :=
      hperm.mem_iff.mp (by simp)
    have htc : top.count = 1 := by
      have hle := hcount top.crc
      obtain ⟨fm, hfm, hc⟩ := hgr.inhabited top htop
      have hpos : 0 < (fc.needCrcRepair live).1.countP (fun fm => fm.Crc == top.crc) :=
        List.countP_pos_iff.mpr ⟨fm, hfm, by simpa using hc⟩
      rw [hgr.count_eq top htop]
      omega
    rcases hsub with ⟨-, hout⟩ | ⟨hne, -⟩
    · rw [hout]
      refine ⟨rfl, ?_, ?_, ?_⟩
      · show ((w1 ++ _).filter Warning.isCannotRepair).length = 1
        rw [List.filter_append, filter_cannotRepair_missReplica hw1]
        rfl
      · show (w1 ++ _).filter Warning.isBadCrc = []
        rw [List.filter_append, filter_badCrc_missReplica hw1]
        rfl
      · intro w hw
        change w ∈ w1 ++ _ at hw
        rw [List.mem_append, List.mem_singleton] at hw
        rcases hw with hw | rfl
        · exact Warning.badAddr_none_of_missReplica (hw1 w hw)
        · rfl
    · exact absurd htc hne

/-- C3, at metas `A:1, B:2, C:3`: exactly the "can not repair" warning. -/
theorem checkExtentFile_all_distinct_witness :
    (checkExtentFile goInsertionSort sampleConsts 100000 samplePartition fileAllDiffer
        liveABC "c1").warns =
      [Warning.cannotRepair "c1" 5 "17" "ExtentOffset"
        [⟨"A", 1, 1⟩, ⟨"B", 1, 2⟩, ⟨"C", 1, 3⟩]] ∧
    ((checkExtentFile goInsertionSort sampleConsts 100000 samplePartition fileAllDiffer
        liveABC "c1").panicked = false ∧
    ((checkExtentFile goInsertionSort sampleConsts 100000 samplePartition fileAllDiffer
        liveABC "c1").warns.filter Warning.isCannotRepair).length = 1 ∧
    (checkExtentFile goInsertionSort sampleConsts 100000 samplePartition fileAllDiffer
        liveABC "c1").warns.filter Warning.isBadCrc = [] ∧
    ∀ w ∈ (checkExtentFile goInsertionSort sampleConsts 100000 samplePartition fileAllDiffer
        liveABC "c1").warns, w.badAddr? = none) :=
  ⟨by decide,
    checkExtentFile_all_distinct goInsertionSort_sorts sampleConsts 100000 samplePartition
      fileAllDiffer liveABC "c1" (by decide) (by decide) (by decide)⟩

/-- C4. When all collected metas carry the same checksum (none or one meta
included), `needCrcRepair` reports no repair and `checkExtentFile` returns
normally without a "can not repair" warning and without a bad-replica warning;
and `needCrcRepair` reports repair exactly when a collected meta differs in
checksum from the first collected meta. -/
theorem needCrcRepair_iff_differs_from_first (srt : List FileCrc → List FileCrc)
    (cfg : Consts) (now : Int) (p : DataPartition) (fc : FileInCore)
    (live : List DataReplica) (cid : String) :
    ((fc.needCrcRepair live).2 = true ↔
      ∃ fm0, (fc.needCrcRepair live).1.head? = some fm0 ∧
        ∃ fm ∈ (fc.needCrcRepair live).1, fm.Crc ≠ fm0.Crc) ∧
    ((∀ fm ∈ (fc.needCrcRepair live).1, ∀ fm' ∈ (fc.needCrcRepair live).1,
        fm.Crc = fm'.Crc) →
      (fc.needCrcRepair live).2 = false ∧
      (checkExtentFile srt cfg now p fc live cid).panicked = false ∧
      (checkExtentFile srt cfg now p fc live cid).warns.filter Warning.isCannotRepair = [] ∧
      (checkExtentFile srt cfg now p fc live cid).warns.filter Warning.isBadCrc = []) := by
  refine ⟨needCrcRepair_snd fc live, ?_⟩
  intro hsame
  have hnr : (fc.needCrcRepair live).2 = false := by
    cases h : (fc.needCrcRepair live).2 with
    | false => rfl
    | true =>
      obtain ⟨fm0, hhead, fm, hfm, hne⟩ := (needCrcRepair_snd fc live).mp h
      exact absurd (hsame fm hfm fm0 (List.mem_of_mem_head? hhead)) hne
  obtain ⟨w1, hw1, hout⟩ := checkExtentFile_no_repair srt cfg now p fc live cid hnr
  rw [hout]
  exact ⟨hnr, rfl, filter_cannotRepair_missReplica hw1, filter_badCrc_missReplica hw1⟩

/-- C4, at metas `A:1, B:1, C:1`: no repair, no warning. -/
theorem needCrcRepair_iff_differs_from_first_witness :
    (fileAllAgree.needCrcRepair liveABC).2 = false ∧
    (checkExtentFile goInsertionSort sampleConsts 100000 samplePartition fileAllAgree
        liveABC "c1").panicked = false ∧
    (checkExtentFile goInsertionSort sampleConsts 100000 samplePartition fileAllAgree
        liveABC "c1").warns.filter Warning.isCannotRepair = [] ∧
    (checkExtentFile goInsertionSort sampleConsts 100000 samplePartition fileAllAgree
        liveABC "c1").warns.filter Warning.isBadCrc = [] :=
  (needCrcRepair_iff_differs_from_first goInsertionSort sampleConsts 100000 samplePartition
    fileAllAgree liveABC "c1").2 (by decide)

/-- C5 fails as stated: a tiny extent (ID 5000001) that is not due
(`now - LastModify` is 100) has collected metas of sizes 10 and 11 and
`checkChunkFile` emits no warning. -/
theorem checkChunkFile_not_due_sizes_differ :
    (parseUint64 tinySizesDiffer.Name).map isTinyExtent = some true ∧
    tinySizesDiffer.isCheckCrc sampleConsts 100 = false ∧
    sampleMeta "A" 1 10 ∈ (tinySizesDiffer.needCrcRepair liveABC).1 ∧
    sampleMeta "B" 1 11 ∈ (tinySizesDiffer.needCrcRepair liveABC).1 ∧
    (checkChunkFile sampleConsts 100 samplePartition tinySizesDiffer liveABC "c1").warns
      = [] := by
  refine ⟨by decide, by decide, by decide, by decide, by decide⟩

/-- C5 (amended). Whatever the checksums: when all collected metas report the
same size, `checkChunkFile` emits no warning (and returns normally if a meta was
collected); when the record is due and a collected meta differs in size from
another, it returns normally with exactly one warning, the size-mismatch
warning over the collected metas. -/
theorem checkChunkFile_size_rule (cfg : Consts) (now : Int) (p : DataPartition)
    (fc : FileInCore) (live : List DataReplica) (cid : String) :
    ((∀ fm ∈ (fc.needCrcRepair live).1, ∀ fm' ∈ (fc.needCrcRepair live).1,
        fm.Size = fm'.Size) →
      (checkChunkFile cfg now p fc live cid).warns = [] ∧
      ((fc.needCrcRepair live).1 ≠ [] →
        (checkChunkFile cfg now p fc live cid).panicked = false)) ∧
    (fc.isCheckCrc cfg now = true →
      (∃ fm ∈ (fc.needCrcRepair live).1, ∃ fm' ∈ (fc.needCrcRepair live).1,
        fm.Size ≠ fm'.Size) →
      checkChunkFile cfg now p fc live cid =
        Outcome.ret [Warning.sizeNotMatch cid (fc.needCrcRepair live).1]) := by
  constructor
  · intro hsame
    by_cases helig : fc.isCheckCrc cfg now = true
    · unfold checkChunkFile
      simp only [helig, Bool.true_eq_false, if_false]
      rcases hl : (fc.needCrcRepair live).1 with _ | ⟨a, t⟩
      · simp [isSameSize, Outcome.panic]
      · have hall : (a :: t).all (fun fm => fm.Size == a.Size) = true := by
          rw [List.all_eq_true]
          intro x hx
          have := hsame x (by rw [hl]; exact hx) a (by rw [hl]; simp)
          simpa using this
        simp [isSameSize, hall, Outcome.ret]
    · have hf : fc.isCheckCrc cfg now = false := by simpa using helig
      rw [checkChunkFile_not_due cfg now p fc live cid hf]
      exact ⟨rfl, fun _ => rfl⟩
  · intro helig hdiff
    obtain ⟨x, hx, y, hy, hxy⟩ := hdiff
    unfold checkChunkFile
    simp only [helig, Bool.true_eq_false, if_false]
    rcases hl : (fc.needCrcRepair live).1 with _ | ⟨a, t⟩
    · rw [hl] at hx
      exact absurd hx (List.not_mem_nil _)
    · have hall : (a :: t).all (fun fm => fm.Size == a.Size) = false := by
        by_contra hcon
        have hcon' : (a :: t).all (fun fm => fm.Size == a.Size) = true := by
          simpa using hcon
        rw [List.all_eq_true] at hcon'
        have h1 := hcon' x (by rw [← hl]; exact hx)
        have h2 := hcon' y (by rw [← hl]; exact hy)
        simp only [beq_iff_eq] at h1 h2
        exact hxy (h1.trans h2.symm)
      simp [isSameSize, hall]

/-- C5 (amended), on a tiny extent with equal sizes and three different
checksums, and on a due tiny extent with sizes 10, 11, 10. -/
theorem checkChunkFile_size_rule_witness :
    ((checkChunkFile sampleConsts 100000 samplePartition tinySameSize liveABC "c1").warns = [] ∧
      ((tinySameSize.needCrcRepair liveABC).1 ≠ [] →
        (checkChunkFile sampleConsts 100000 samplePartition tinySameSize liveABC
          "c1").panicked = false)) ∧
    checkChunkFile sampleConsts 100000 samplePartition tinySizesDiffer liveABC "c1" =
      Outcome.ret [Warning.sizeNotMatch "c1" (tinySizesDiffer.needCrcRepair liveABC).1] :=
  ⟨(checkChunkFile_size_rule sampleConsts 100000 samplePartition tinySameSize liveABC "c1").1
      (by decide),
    (checkChunkFile_size_rule sampleConsts 100000 samplePartition tinySizesDiffer liveABC
      "c1").2 (by decide) (by decide)⟩

/-- C6. A record that is not due (`now - LastModify`, taken in `int64` as the
code takes it, is at most `defaultFileDelayCheckCrcSec`; equality included)
makes `checkExtentFile`, `checkChunkFile` and `generateFileCrcTask` return
normally without any warning, and `generateFileCrcTask` returns no task. -/
theorem no_warning_when_not_due (srt : List FileCrc → List FileCrc) (cfg : Consts)
    (now : Int) (p : DataPartition) (fc : FileInCore) (live : List DataReplica)
    (cid : String) (pid : Nat)
    (h : wrapInt64 (now - fc.LastModify) ≤ cfg.defaultFileDelayCheckCrcSec) :
    fc.isCheckCrc cfg now = false ∧
    checkExtentFile srt cfg now p fc live cid = Outcome.ret [] ∧
    checkChunkFile cfg now p fc live cid = Outcome.ret [] ∧
    fc.generateFileCrcTask srt cfg now pid live cid = ([], Outcome.ret []) := by
  have hf := (isCheckCrc_eq_false_iff cfg now fc).mpr h
  exact ⟨hf, checkExtentFile_not_due srt cfg now p fc live cid hf,
    checkChunkFile_not_due cfg now p fc live cid hf,
    generateFileCrcTask_not_due srt cfg now fc pid live cid hf⟩

/-- C6, at the boundary `now - LastModify = defaultFileDelayCheckCrcSec`, on a
record whose metas all differ. -/
theorem no_warning_when_not_due_witness :
    wrapInt64 (7200 - fileAllDiffer.LastModify) = sampleConsts.defaultFileDelayCheckCrcSec ∧
    (fileAllDiffer.isCheckCrc sampleConsts 7200 = false ∧
    checkExtentFile goInsertionSort sampleConsts 7200 samplePartition fileAllDiffer liveABC
      "c1" = Outcome.ret [] ∧
    checkChunkFile sampleConsts 7200 samplePartition fileAllDiffer liveABC "c1" =
      Outcome.ret [] ∧
    fileAllDiffer.generateFileCrcTask goInsertionSort sampleConsts 7200 5 liveABC "c1" =
      ([], Outcome.ret [])) :=
  ⟨by decide,
    no_warning_when_not_due goInsertionSort sampleConsts 7200 samplePartition fileAllDiffer
      liveABC "c1" 5 (by decide)⟩

/-! ## The meta node: claims C7 to C10 -/

set_option maxRecDepth 4000 in
/-- C7 fails as stated.  (a) The sample node is active with ample memory, its
threshold is `0.75` and `Used/Total` is larger than `3/4`, yet the `float32`
ratio is exactly `0.75` and `isWriteAble` returns true.  (b) With `Threshold`
not a number, which is not positive, and a computed ratio `0.9375` greater than
the constant `0.75`, `isWriteAble` returns true. -/
theorem isWriteAble_true_above_threshold :
    ((sampleNode.isWriteAble sampleConsts Flt.lit0_75).1 = true ∧
      sampleNode.Threshold.toRat? = some (3 / 4) ∧
      3 * sampleNode.Total < 4 * sampleNode.Used ∧
      sampleNode.usedRatio = Flt.lit0_75) ∧
    ((sampleNodeNaN.isWriteAble sampleConsts Flt.lit0_75).1 = true ∧
      Flt.gt sampleNodeNaN.Threshold Flt.zero32 = false ∧
      sampleNodeNaN.usedRatio = Flt.fin false 15728640 (-24) ∧
      Flt.gt sampleNodeNaN.usedRatio Flt.lit0_75 = true) := by
  refine ⟨⟨by decide, ?_, by decide, by decide⟩, by decide, by decide, by decide, by decide⟩
  simp only [sampleNode, Flt.lit0_75, Flt.toRat?, Bool.false_eq_true, if_false]
  norm_num

/-- C7 (amended). `isWriteAble` returns true exactly when the node is active,
`MaxMemAvailWeight > defaultMetaNodeReservedMem`, the ratio as the code computes
it, `float32(float64(Used)/float64(Total))`, is not greater than the effective
threshold, and `MetaPartitionCount < defaultMetaPartitionCountOnEachNode`; the
effective threshold is the constant when `Threshold <= 0` and the node's
`Threshold` otherwise, which for a `Threshold` that is a number means: the
node's `Threshold` if it is positive, the constant otherwise.  It returns false
whenever the node is inactive and whenever the computed ratio is greater than
the effective threshold. -/
theorem isWriteAble_iff (cfg : Consts) (d : Flt) (n : MetaNode) :
    ((n.isWriteAble cfg d).1 = true ↔
      n.IsActive = true ∧ n.MaxMemAvailWeight > cfg.defaultMetaNodeReservedMem ∧
      Flt.gt n.usedRatio (n.effectiveThreshold d) = false ∧
      n.MetaPartitionCount < cfg.defaultMetaPartitionCountOnEachNode) ∧
    (n.Threshold ≠ Flt.nan →
      n.effectiveThreshold d = if Flt.gt n.Threshold Flt.zero32 = true then n.Threshold else d) ∧
    (n.IsActive = false → (n.isWriteAble cfg d).1 = false) ∧
    (Flt.gt n.usedRatio (n.effectiveThreshold d) = true → (n.isWriteAble cfg d).1 = false) := by
  refine ⟨?_, ?_, ?_, ?_⟩
  · rw [isWriteAble_fst]
    simp only [Bool.and_eq_true, decide_eq_true_eq, Bool.not_eq_true', and_assoc]
  · intro hnan
    unfold MetaNode.effectiveThreshold
    rw [Flt.le_eq_not_lt _ _ hnan (by simp [Flt.zero32]), Flt.gt]
    cases Flt.lt Flt.zero32 n.Threshold <;> simp
  · intro h
    rw [isWriteAble_fst, h]
    rfl
  · intro h
    rw [isWriteAble_fst, h]
    simp

set_option maxRecDepth 4000 in
/-- C8: on an active node with ample memory whose `Threshold` is zero,
`isWriteAble` leaves the node with `Threshold` set to the constant. -/
theorem isWriteAble_overwrites_Threshold :
    sampleNodeUnset.Threshold = Flt.zero32 ∧
    (sampleNodeUnset.isWriteAble sampleConsts Flt.lit0_75).2.Threshold = Flt.lit0_75 ∧
    (sampleNodeUnset.isWriteAble sampleConsts Flt.lit0_75).2 ≠ sampleNodeUnset := by
  refine ⟨by decide, by decide, by decide⟩

set_option maxRecDepth 4000 in
/-- C9 fails as stated: a `SelectCount` of `2^64 - 1` becomes 0 after one call;
a `Carry` of `2^54` is still `2^54` after one call; a `Carry` of `2^-53` is
`-2.0` after two calls, a decrease by more than 2. -/
theorem SelectNodeForWrite_not_exact :
    ({ sampleNode with SelectCount := 2 ^ 64 - 1 } : MetaNode).SelectNodeForWrite.SelectCount
      = 0 ∧
    ({ sampleNode with Carry := Flt.fin false (2 ^ 52) 2 } : MetaNode).SelectNodeForWrite.Carry
      = Flt.fin false (2 ^ 52) 2 ∧
    (MetaNode.SelectNodeForWrite^[2]
        ({ sampleNode with Carry := Flt.fin false (2 ^ 52) (-105) } : MetaNode)).Carry
      = Flt.fin true (2 ^ 52) (-51) := by
  refine ⟨by decide, by decide, by decide⟩

/-- C9 (amended). After `N` consecutive calls of `SelectNodeForWrite` on a node
whose `SelectCount` is a `uint64`, `SelectCount` is the old value plus `N`
modulo `2^64` (the old value plus `N` when that is below `2^64`), `Carry` is the
result of subtracting `1.0` from the old value `N` times in `float64`
arithmetic, each difference rounded, and every other field is unchanged. -/
theorem SelectNodeForWrite_iterate (n : MetaNode) (N : Nat) (hwf : n.SelectCount < 2 ^ 64) :
    (MetaNode.SelectNodeForWrite^[N] n =
      { n with
        SelectCount := (n.SelectCount + N) % 2 ^ 64
        Carry := (fun c => Flt.sub binary64 c Flt.one64)^[N] n.Carry }) ∧
    (n.SelectCount + N < 2 ^ 64 →
      (MetaNode.SelectNodeForWrite^[N] n).SelectCount = n.SelectCount + N) := by
  have key : MetaNode.SelectNodeForWrite^[N] n =
      { n with
        SelectCount := (n.SelectCount + N) % 2 ^ 64
        Carry := (fun c => Flt.sub binary64 c Flt.one64)^[N] n.Carry } := by
    induction N with
    | zero =>
      simp only [Function.iterate_zero, id_eq, Nat.add_zero, Nat.mod_eq_of_lt hwf]
    | succ k ih =>
      rw [Function.iterate_succ_apply', ih, Function.iterate_succ_apply']
      simp only [MetaNode.SelectNodeForWrite]
      congr 1
      omega
  refine ⟨key, ?_⟩
  intro hlt
  rw [key]
  exact Nat.mod_eq_of_lt hlt

set_option maxRecDepth 4000 in
/-- C9 (amended), three calls on the sample node: `SelectCount` 0 becomes 3 and
`Carry` `0.5` becomes `-2.5`. -/
theorem SelectNodeForWrite_iterate_witness :
    sampleNode.SelectCount < 2 ^ 64 ∧
    ((MetaNode.SelectNodeForWrite^[3] sampleNode =
      { sampleNode with
        SelectCount := (sampleNode.SelectCount + 3) % 2 ^ 64
        Carry := (fun c => Flt.sub binary64 c Flt.one64)^[3] sampleNode.Carry }) ∧
    (sampleNode.SelectCount + 3 < 2 ^ 64 →
      (MetaNode.SelectNodeForWrite^[3] sampleNode).SelectCount = sampleNode.SelectCount + 3)) ∧
    (MetaNode.SelectNodeForWrite^[3] sampleNode).Carry = Flt.fin true (5 * 2 ^ 50) (-51) :=
  ⟨by decide, SelectNodeForWrite_iterate sampleNode 3 (by decide), by decide⟩

/-- C10. `isAvailCarryNode` is the comparison `Carry >= 1.0`: it returns true
exactly when `Carry` is plus infinity or a finite value that is at least one,
and after `SetCarry c` exactly when `c` is; it is false at the `float64`
nearest to `0.999999` and true at `1.0`. -/
theorem isAvailCarryNode_iff (n : MetaNode) (c : Flt) :
    (n.isAvailCarryNode = true ↔
      n.Carry = Flt.inf false ∨ ∃ q, n.Carry.toRat? = some q ∧ 1 ≤ q) ∧
    ((n.SetCarry c).isAvailCarryNode = true ↔
      c = Flt.inf false ∨ ∃ q, c.toRat? = some q ∧ 1 ≤ q) ∧
    (n.SetCarry Flt.lit0_999999).isAvailCarryNode = false ∧
    (n.SetCarry Flt.one64).isAvailCarryNode = true ∧
    (∃ q, Flt.lit0_999999.toRat? = some q ∧ |q - 999999 / 1000000| ≤ 1 / 2 ^ 54) := by
  have hset : ∀ x, (n.SetCarry x).isAvailCarryNode = Flt.ge x Flt.one64 := fun _ => rfl
  refine ⟨Flt.ge_one64_iff _, Flt.ge_one64_iff _, ?_, ?_, ?_⟩
  · rw [hset]; decide
  · rw [hset]; decide
  refine ⟨_, rfl, ?_⟩
  rw [abs_le]
  constructor <;> norm_num

/-! ## Lemmas: order and sum of the groups -/

theorem mem_distinctInOrder (l : List Nat) (x : Nat) : x ∈ distinctInOrder l ↔ x ∈ l := by
  induction l with
  | nil => simp [distinctInOrder]
  | cons a as ih =>
    simp only [distinctInOrder, List.mem_cons, List.mem_filter, ih, bne_iff_ne, ne_eq]
    constructor
    · rintro (h | ⟨h, -⟩)
      · exact Or.inl h
      · exact Or.inr h
    · intro h
      by_cases hx : x = a
      · exact Or.inl hx
      · rcases h with h | h
        · exact absurd h hx
        · exact Or.inr ⟨h, hx⟩

theorem nodup_distinctInOrder (l : List Nat) : (distinctInOrder l).Nodup := by
  induction l with
  | nil => simp [distinctInOrder]
  | cons a as ih =>
    simp only [distinctInOrder, List.nodup_cons, List.mem_filter, bne_iff_ne, ne_eq,
      not_true_eq_false, and_false, not_false_eq_true, true_and]
    exact ih.filter _

theorem bumpCount_sum (k : Nat) (arr : List FileCrc)
    (h : arr.any (fun c => c.crc == k) = true) :
    ((bumpCount k arr).map (fun g => g.count)).sum = (arr.map (fun g => g.count)).sum + 1 := by
  induction arr with
  | nil => simp at h
  | cons g gs ih =>
    by_cases hk : g.crc = k
    · simp only [bumpCount, hk, if_true, List.map_cons, List.sum_cons]
      omega
    · have h' : gs.any (fun c => c.crc == k) = true := by
        simpa [List.any_cons, hk] using h
      simp only [bumpCount, hk, if_false, List.map_cons, List.sum_cons, ih h']
      omega

theorem calculateCrcCountFrom_sum (rest : List FileMetaOnNode) :
    ∀ arr : List FileCrc,
      ((calculateCrcCountFrom arr rest).map (fun g => g.count)).sum =
        (arr.map (fun g => g.count)).sum + rest.length := by
  induction rest with
  | nil => intro arr; simp [calculateCrcCountFrom]
  | cons fm rest ih =>
    intro arr
    unfold calculateCrcCountFrom
    by_cases hfound : arr.any (fun c => c.crc == fm.getFileCrc) = true
    · simp only [hfound, if_true]
      rw [ih, bumpCount_sum _ _ hfound, List.length_cons]
      omega
    · have hnew : arr.any (fun c => c.crc == fm.getFileCrc) = false := by simpa using hfound
      simp only [hnew, Bool.false_eq_true, if_false]
      rw [ih]
      simp [newFileCrc]
      omega

theorem calculateCrcCountFrom_keys (rest : List FileMetaOnNode) :
    ∀ arr : List FileCrc,
      (calculateCrcCountFrom arr rest).map (fun g => g.crc) =
        arr.map (fun g => g.crc) ++
          (distinctInOrder (rest.map (fun fm => fm.Crc))).filter
            (fun y => decide (y ∉ arr.map (fun g => g.crc))) := by
  induction rest with
  | nil => intro arr; simp [calculateCrcCountFrom, distinctInOrder]
  | cons fm rest ih =>
    intro arr
    unfold calculateCrcCountFrom
    by_cases hfound : arr.any (fun c => c.crc == fm.getFileCrc) = true
    · simp only [hfound, if_true]
      have hmem : fm.Crc ∈ arr.map (fun g => g.crc) := by
        rw [List.any_eq_true] at hfound
        obtain ⟨g, hg, hgc⟩ := hfound
        exact List.mem_map.mpr ⟨g, hg, by simpa [FileMetaOnNode.getFileCrc] using hgc⟩
      rw [ih, bumpCount_map_crc]
      congr 1
      simp only [List.map_cons, distinctInOrder, List.filter_cons, hmem, not_true_eq_false,
        decide_False, Bool.false_eq_true, if_false, List.filter_filter]
      apply List.filter_congr
      intro y _
      by_cases hy : y ∈ arr.map (fun g => g.crc)
      · simp [hy]
      · have : y ≠ fm.Crc := fun e => hy (e ▸ hmem)
        simp [hy, this]
    · have hnew : arr.any (fun c => c.crc == fm.getFileCrc) = false := by simpa using hfound
      simp only [hnew, Bool.false_eq_true, if_false]
      have hmem : fm.Crc ∉ arr.map (fun g => g.crc) := by
        intro hm
        rw [List.mem_map] at hm
        obtain ⟨g, hg, hgc⟩ := hm
        have : arr.any (fun c => c.crc == fm.getFileCrc) = true :=
          List.any_eq_true.mpr ⟨g, hg, by simpa [FileMetaOnNode.getFileCrc] using hgc⟩
        rw [hnew] at this
        exact Bool.noConfusion this
      rw [ih]
      simp only [List.map_append, List.map_cons, List.map_nil, newFileCrc,
        FileMetaOnNode.getFileCrc, distinctInOrder, List.filter_cons, hmem,
        not_false_eq_true, decide_True, if_true, List.filter_filter, List.append_assoc,
        List.singleton_append]
      congr 2
      apply List.filter_congr
      intro y _
      by_cases hy : y = fm.Crc
      · simp [hy]
      · simp [hy]

/-! ## Lemmas: `generateFileCrcTask` against `checkExtentFile` -/

theorem badCrcLoop_withWhat (what cid : String) (pid : Nat) (file : String)
    (arr : List FileCrc) (maxIdx : Nat) :
    ∀ (l : List (Nat × FileCrc)) (acc : List Warning),
      (badCrcLoop cid pid file arr maxIdx l acc).withWhat what =
        badCrcLoop cid pid file arr maxIdx l (acc.map (Warning.withWhat what)) := by
  intro l
  induction l with
  | nil => intro acc; simp [badCrcLoop, Outcome.withWhat, Outcome.ret]
  | cons x xs ih =>
    intro acc
    obtain ⟨index, crc⟩ := x
    unfold badCrcLoop
    by_cases hidx : index ≠ maxIdx
    · simp only [hidx, ne_eq, not_false_eq_true, if_true]
      cases hm : crc.meta with
      | none => simp [Outcome.withWhat, Outcome.panic]
      | some badNode =>
        cases hl : crcLog arr with
        | none => simp [Outcome.withWhat, Outcome.panic]
        | some L =>
          simp only []
          rw [ih]
          simp [Warning.withWhat]
    · simp only [hidx, if_false]
      exact ih acc

/-- `generateFileCrcTask` returns no task and runs like `checkExtentFile` on the
same partition ID, but for the word in the "can not repair" text. -/
theorem generateFileCrcTask_eq (srt : List FileCrc → List FileCrc) (cfg : Consts)
    (now : Int) (p : DataPartition) (fc : FileInCore) (live : List DataReplica)
    (cid : String) :
    fc.generateFileCrcTask srt cfg now p.PartitionID live cid =
      ([], (checkExtentFile srt cfg now p fc live cid).withWhat "CRC") := by
  unfold FileInCore.generateFileCrcTask checkExtentFile
  by_cases helig : fc.isCheckCrc cfg now = false
  · simp [helig, Outcome.withWhat, Outcome.ret]
  · have he : fc.isCheckCrc cfg now = true := by simpa using helig
    simp only [he, Bool.true_eq_false, if_false]
    rcases hnr : fc.needCrcRepair live with ⟨fms, nr⟩
    simp only []
    have hw1 : ∀ w1 : List Warning, (∀ w ∈ w1, w.isMissReplica = true) →
        w1.map (Warning.withWhat "CRC") = w1 := by
      intro w1 h
      conv_rhs => rw [← List.map_id w1]
      apply List.map_congr_left
      intro w hw
      have := h w hw
      cases w <;> simp_all [Warning.isMissReplica, Warning.withWhat]
    have hmiss : ∀ w ∈ (if fms.length < live.length ∧
        wrapInt64 (now - fc.LastModify) > cfg.checkMissFileReplicaTime then
          [Warning.missReplica cid p.PartitionID fc.Name fc.getFileMetaAddrs
            (live.map (fun replica => replica.Addr))]
        else []), w.isMissReplica = true := by
      intro w hw
      split at hw
      · simp only [List.mem_singleton] at hw
        rw [hw]; rfl
      · simp at hw
    cases nr with
    | false => simp [Outcome.withWhat, Outcome.ret, hw1 _ hmiss]
    | true =>
      simp only [Bool.not_true, Bool.false_eq_true, if_false]
      cases hlast : (srt (calculateCrcCount fms)).getLast? with
      | none => simp [Outcome.withWhat, Outcome.panic, hw1 _ hmiss]
      | some top =>
        simp only []
        by_cases h1 : top.count = 1
        · simp only [h1, if_true]
          cases hl : crcLog (srt (calculateCrcCount fms)) with
          | none => simp [Outcome.withWhat, Outcome.panic, hw1 _ hmiss]
          | some L => simp [Outcome.withWhat, Outcome.ret, hw1 _ hmiss, Warning.withWhat]
        · simp only [h1, if_false]
          rw [badCrcLoop_withWhat, hw1 _ hmiss]

theorem Warning.kind_withWhat (what : String) (w : Warning) :
    (w.withWhat what).kind = w.kind := by
  cases w <;> rfl

theorem Warning.badAddr_withWhat (what : String) (w : Warning) :
    (w.withWhat what).badAddr? = w.badAddr? := by
  cases w <;> rfl

/-- `checkExtentFile` returns normally whenever the sorting function meets the
contract of `sort.Sort`. -/
theorem checkExtentFile_not_panicked {srt : List FileCrc → List FileCrc}
    (hs : SortsByCount srt) (cfg : Consts) (now : Int) (p : DataPartition)
    (fc : FileInCore) (live : List DataReplica) (cid : String) :
    (checkExtentFile srt cfg now p fc live cid).panicked = false := by
  by_cases helig : fc.isCheckCrc cfg now = true
  · obtain ⟨w1, -, hcase⟩ := checkExtentFile_shape hs cfg now p fc live cid helig
    rcases hcase with ⟨-, hout⟩ | ⟨-, init, top, L, -, -, -, ⟨-, hout⟩ | ⟨-, hout⟩⟩ <;>
      rw [hout] <;> rfl
  · have hf : fc.isCheckCrc cfg now = false := by simpa using helig
    rw [checkExtentFile_not_due srt cfg now p fc live cid hf]
    rfl

/-! ## Lemmas: the scan of a partition, the warnings of a run -/

theorem isTinyExtent_iff (id : Nat) :
    isTinyExtent id = true ↔ 5000000 ≤ id ∧ id < 5000128 := by
  simp [isTinyExtent, tinyExtentStartID, tinyExtentCount]

theorem Outcome.eq_of_panicked_true {r : Outcome} (h : r.panicked = true) :
    Outcome.panic r.warns = r := by
  cases r; simp_all [Outcome.panic]

theorem Outcome.eq_of_panicked_false {r : Outcome} (h : r.panicked = false) :
    Outcome.ret r.warns = r := by
  cases r; simp_all [Outcome.ret]

/-- `checkExtentFile` reads only the ID of the partition. -/
theorem checkExtentFile_partition (srt : List FileCrc → List FileCrc) (cfg : Consts)
    (now : Int) (p p' : DataPartition) (fc : FileInCore) (live : List DataReplica)
    (cid : String) (h : p.PartitionID = p'.PartitionID) :
    checkExtentFile srt cfg now p fc live cid = checkExtentFile srt cfg now p' fc live cid := by
  unfold checkExtentFile
  rw [h]

/-- The loop of `checkFileInternal` reads only the ID of the partition. -/
theorem checkFileLoop_partition (srt : List FileCrc → List FileCrc) (cfg : Consts)
    (now : Int) (p p' : DataPartition) (live : List DataReplica) (cid : String)
    (h : p.PartitionID = p'.PartitionID) :
    ∀ (l : List FileInCore) (acc : List Warning),
      checkFileLoop srt cfg now p live cid l acc = checkFileLoop srt cfg now p' live cid l acc := by
  intro l
  induction l with
  | nil => intro acc; rfl
  | cons fc rest ih =>
    intro acc
    unfold checkFileLoop
    cases parseUint64 fc.Name with
    | none => exact ih acc
    | some id =>
      simp only []
      rw [checkExtentFile_partition srt cfg now p p' fc live cid h]
      have hchunk : checkChunkFile cfg now p fc live cid = checkChunkFile cfg now p' fc live cid :=
        rfl
      rw [hchunk]
      simp only [ih]

/-- One step of the loop of `checkFileInternal` on a record whose name does not
parse: the record is passed over. -/
theorem checkFileLoop_skip (srt : List FileCrc → List FileCrc) (cfg : Consts)
    (now : Int) (p : DataPartition) (live : List DataReplica) (cid : String)
    (fc : FileInCore) (h : parseUint64 fc.Name = none) :
    ∀ (pre post : List FileInCore) (acc : List Warning),
      checkFileLoop srt cfg now p live cid (pre ++ fc :: post) acc =
        checkFileLoop srt cfg now p live cid (pre ++ post) acc := by
  intro pre
  induction pre with
  | nil =>
    intro post acc
    simp only [List.nil_append]
    rw [checkFileLoop, h]
  | cons x xs ih =>
    intro post acc
    simp only [List.cons_append]
    unfold checkFileLoop
    cases parseUint64 x.Name with
    | none => exact ih post acc
    | some id =>
      simp only []
      simp only [ih]

/-- One step of the loop of `checkFileInternal` on a record whose name parses. -/
theorem checkFileLoop_cons (srt : List FileCrc → List FileCrc) (cfg : Consts)
    (now : Int) (p : DataPartition) (live : List DataReplica) (cid : String)
    (fc : FileInCore) (rest : List FileInCore) (acc : List Warning) (id : Nat)
    (h : parseUint64 fc.Name = some id) :
    checkFileLoop srt cfg now p live cid (fc :: rest) acc =
      if (if isTinyExtent id = true then checkChunkFile cfg now p fc live cid
          else checkExtentFile srt cfg now p fc live cid).panicked = true then
        Outcome.panic (acc ++
          (if isTinyExtent id = true then checkChunkFile cfg now p fc live cid
            else checkExtentFile srt cfg now p fc live cid).warns)
      else
        checkFileLoop srt cfg now p live cid rest (acc ++
          (if isTinyExtent id = true then checkChunkFile cfg now p fc live cid
            else checkExtentFile srt cfg now p fc live cid).warns) := by
  rw [checkFileLoop, h]

theorem badCrcLoop_warns (cid : String) (pid : Nat) (file : String)
    (arr : List FileCrc) (maxIdx : Nat) :
    ∀ (l : List (Nat × FileCrc)) (acc : List Warning),
      ∃ ws, (badCrcLoop cid pid file arr maxIdx l acc).warns = acc ++ ws ∧
        ∀ w ∈ ws, w.isBadCrc = true := by
  intro l
  induction l with
  | nil => intro acc; exact ⟨[], by simp [badCrcLoop, Outcome.ret], by simp⟩
  | cons x xs ih =>
    intro acc
    obtain ⟨index, crc⟩ := x
    unfold badCrcLoop
    by_cases hidx : index ≠ maxIdx
    · simp only [hidx, ne_eq, not_false_eq_true, if_true]
      cases hm : crc.meta with
      | none => exact ⟨[], by simp [Outcome.panic], by simp⟩
      | some badNode =>
        cases hl : crcLog arr with
        | none => exact ⟨[], by simp [Outcome.panic], by simp⟩
        | some L =>
          simp only []
          obtain ⟨ws, hws, hall⟩ :=
            ih (acc ++ [Warning.badCrc cid pid file badNode.getLocationAddr L])
          refine ⟨Warning.badCrc cid pid file badNode.getLocationAddr L :: ws, ?_, ?_⟩
          · rw [hws]; simp
          · intro w hw
            rcases List.mem_cons.mp hw with rfl | hw'
            · rfl
            · exact hall w hw'
    · simp only [hidx, if_false]
      exact ih acc

/-- The warnings of a run of `checkExtentFile` on a record that is due, for
every sorting function: the missing-replica warning if its condition holds,
then warnings of other kinds. -/
theorem checkExtentFile_warns_prefix (srt : List FileCrc → List FileCrc) (cfg : Consts)
    (now : Int) (p : DataPartition) (fc : FileInCore) (live : List DataReplica)
    (cid : String) (helig : fc.isCheckCrc cfg now = true) :
    ∃ ws, (checkExtentFile srt cfg now p fc live cid).warns =
        (if (fc.needCrcRepair live).1.length < live.length ∧
            wrapInt64 (now - fc.LastModify) > cfg.checkMissFileReplicaTime then
          [Warning.missReplica cid p.PartitionID fc.Name fc.getFileMetaAddrs
            (live.map (fun replica => replica.Addr))]
        else []) ++ ws ∧
      (∀ w ∈ ws, w.isMissReplica = false) ∧
      ((fc.needCrcRepair live).2 = false → ws = []) := by
  unfold checkExtentFile
  simp only [helig, Bool.true_eq_false, if_false]
  rcases hnr : fc.needCrcRepair live with ⟨fms, nr⟩
  simp only []
  cases nr with
  | false => exact ⟨[], by simp [Outcome.ret], by simp, fun _ => rfl⟩
  | true =>
    simp only [Bool.not_true, Bool.false_eq_true, if_false]
    cases hlast : (srt (calculateCrcCount fms)).getLast? with
    | none => exact ⟨[], by simp [Outcome.panic], by simp, by simp⟩
    | some top =>
      simp only []
      by_cases h1 : top.count = 1
      · simp only [h1, if_true]
        cases hl : crcLog (srt (calculateCrcCount fms)) with
        | none => exact ⟨[], by simp [Outcome.panic], by simp, by simp⟩
        | some L =>
          refine ⟨[Warning.cannotRepair cid p.PartitionID fc.Name "ExtentOffset" L],
            by simp [Outcome.ret], ?_, by simp⟩
          intro w hw
          rw [List.mem_singleton.mp hw]; rfl
      · simp only [h1, if_false]
        obtain ⟨ws, hws, hall⟩ := badCrcLoop_warns cid p.PartitionID fc.Name
          (srt (calculateCrcCount fms)) ((srt (calculateCrcCount fms)).length - 1)
          (srt (calculateCrcCount fms)).enum
          (if fms.length < live.length ∧
              wrapInt64 (now - fc.LastModify) > cfg.checkMissFileReplicaTime then
            [Warning.missReplica cid p.PartitionID fc.Name fc.getFileMetaAddrs
              (live.map (fun replica => replica.Addr))]
          else [])
        refine ⟨ws, hws, ?_, by simp⟩
        intro w hw
        have := hall w hw
        cases w <;> simp_all [Warning.isBadCrc, Warning.isMissReplica]

theorem checkChunkFile_warns (cfg : Consts) (now : Int) (p : DataPartition)
    (fc : FileInCore) (live : List DataReplica) (cid : String) :
    ∀ w ∈ (checkChunkFile cfg now p fc live cid).warns, w.isSizeNotMatch = true := by
  intro w hw
  unfold checkChunkFile at hw
  cases he : fc.isCheckCrc cfg now with
  | false => simp [he, Outcome.ret] at hw
  | true =>
    simp only [he, Bool.true_eq_false, if_false] at hw
    cases hs : isSameSize (fc.needCrcRepair live).1 with
    | none => simp [hs, Outcome.panic] at hw
    | some b =>
      cases b with
      | true => simp [hs, Outcome.ret] at hw
      | false =>
        simp only [hs, Outcome.ret, List.mem_singleton] at hw
        rw [hw]; rfl

/-- `checkChunkFile` ends in a panic exactly on a record that is due and has no
collected meta. -/
theorem checkChunkFile_panicked_iff (cfg : Consts) (now : Int) (p : DataPartition)
    (fc : FileInCore) (live : List DataReplica) (cid : String) :
    (checkChunkFile cfg now p fc live cid).panicked = true ↔
      fc.isCheckCrc cfg now = true ∧ (fc.needCrcRepair live).1 = [] := by
  unfold checkChunkFile
  cases he : fc.isCheckCrc cfg now with
  | false => simp [Outcome.ret]
  | true =>
    simp only [Bool.true_eq_false, if_false, true_and]
    cases hl : (fc.needCrcRepair live).1 with
    | nil => simp [isSameSize, Outcome.panic]
    | cons a t =>
      simp only [isSameSize]
      cases (a :: t).all (fun fm => fm.Size == a.Size) <;> simp [Outcome.ret]

/-- The collected metas when repair is needed: at least two, in at least two
groups. -/
theorem needRepair_two_groups (fc : FileInCore) (live : List DataReplica)
    (hnr : (fc.needCrcRepair live).2 = true) :
    2 ≤ (fc.needCrcRepair live).1.length ∧
      2 ≤ (calculateCrcCount (fc.needCrcRepair live).1).length := by
  obtain ⟨fm0, hhead, fm, hfm, hne⟩ := (needCrcRepair_snd fc live).mp hnr
  have hfm0 : fm0 ∈ (fc.needCrcRepair live).1 := List.mem_of_mem_head? hhead
  have hgr := calculateCrcCount_groups (fc.needCrcRepair live).1
  have hcard : 2 ≤ ((fc.needCrcRepair live).1.map (fun fm => fm.Crc)).toFinset.card := by
    have h1 : 1 < ((fc.needCrcRepair live).1.map (fun fm => fm.Crc)).toFinset.card := by
      rw [Finset.one_lt_card]
      refine ⟨fm.Crc, ?_, fm0.Crc, ?_, hne⟩
      · exact List.mem_toFinset.mpr (List.mem_map.mpr ⟨fm, hfm, rfl⟩)
      · exact List.mem_toFinset.mpr (List.mem_map.mpr ⟨fm0, hfm0, rfl⟩)
    omega
  refine ⟨?_, by rw [hgr.length_eq]; exact hcard⟩
  have hle := List.toFinset_card_le ((fc.needCrcRepair live).1.map (fun fm => fm.Crc))
  rw [List.length_map] at hle
  omega

theorem collected_fileTie :
    (fileTie.needCrcRepair liveABCD).1 =
      [sampleMeta "A" 1 10, sampleMeta "B" 1 10, sampleMeta "C" 2 10, sampleMeta "D" 2 10] := by
  decide

theorem most_frequent_fileTie : ∀ c',
    (fileTie.needCrcRepair liveABCD).1.countP (fun fm => fm.Crc == c') ≤
      (fileTie.needCrcRepair liveABCD).1.countP (fun fm => fm.Crc == 1) := by
  intro c'
  rw [collected_fileTie]
  simp only [List.countP_cons, List.countP_nil, sampleMeta, beq_iff_eq]
  split <;> split <;> first | omega | simp

/-! ## Lemmas: durations -/

theorem wrapInt64_of_range (x : Int) (h1 : -(2 ^ 63) ≤ x) (h2 : x < 2 ^ 63) :
    wrapInt64 x = x := by
  unfold wrapInt64
  rw [Int.emod_eq_of_lt (by omega) (by omega)]
  omega

theorem timeSince_gt_iff (cfg : Consts) (now t : Int)
    (hrep : -(2 ^ 63) ≤ 1000000000 * cfg.defaultNodeTimeOutSec ∧
      1000000000 * cfg.defaultNodeTimeOutSec < 2 ^ 63) :
    timeSince now t > wrapInt64 (1000000000 * cfg.defaultNodeTimeOutSec) ↔
      now - t > 1000000000 * cfg.defaultNodeTimeOutSec := by
  rw [wrapInt64_of_range _ hrep.1 hrep.2]
  unfold timeSince
  split
  · constructor <;> intro _ <;> omega
  · split
    · constructor <;> intro _ <;> omega
    · exact Iff.rfl

/-! ## Claims C11 to C20 -/

/-- C11. With the instants of the clock in nanoseconds and a timeout whose
number of nanoseconds is a `Duration`: `setNodeAlive` at `t` sets `ReportTime`
to `t` and `IsActive` to true and nothing else, whatever the node was;
`checkHeartbeat` at `t` sets `IsActive` to false if `t - ReportTime` exceeds
`defaultNodeTimeOutSec` seconds and changes nothing otherwise, so it never makes
a node active; a node swept more than the timeout after its heartbeat is
inactive and the next heartbeat makes it active. -/
theorem liveness_state_machine (cfg : Consts) (n : MetaNode) (t : Int)
    (hrep : -(2 ^ 63) ≤ 1000000000 * cfg.defaultNodeTimeOutSec ∧
      1000000000 * cfg.defaultNodeTimeOutSec < 2 ^ 63) :
    n.setNodeAlive t = { n with ReportTime := t, IsActive := true } ∧
    (t - n.ReportTime > 1000000000 * cfg.defaultNodeTimeOutSec →
      n.checkHeartbeat cfg t = { n with IsActive := false }) ∧
    (¬ (t - n.ReportTime > 1000000000 * cfg.defaultNodeTimeOutSec) →
      n.checkHeartbeat cfg t = n) ∧
    ((n.checkHeartbeat cfg t).IsActive = true → n.IsActive = true) ∧
    (∀ t1 t2 t3 : Int, t2 - t1 > 1000000000 * cfg.defaultNodeTimeOutSec →
      ((n.setNodeAlive t1).checkHeartbeat cfg t2).IsActive = false ∧
      (((n.setNodeAlive t1).checkHeartbeat cfg t2).setNodeAlive t3).IsActive = true ∧
      (((n.setNodeAlive t1).checkHeartbeat cfg t2).setNodeAlive t3).ReportTime = t3) := by
  have hpos : t - n.ReportTime > 1000000000 * cfg.defaultNodeTimeOutSec →
      n.checkHeartbeat cfg t = { n with IsActive := false } := by
    intro h
    unfold MetaNode.checkHeartbeat
    rw [if_pos ((timeSince_gt_iff cfg t n.ReportTime hrep).mpr h)]
  have hneg : ¬ (t - n.ReportTime > 1000000000 * cfg.defaultNodeTimeOutSec) →
      n.checkHeartbeat cfg t = n := by
    intro h
    unfold MetaNode.checkHeartbeat
    rw [if_neg (fun h' => h ((timeSince_gt_iff cfg t n.ReportTime hrep).mp h'))]
  refine ⟨rfl, hpos, hneg, ?_, ?_⟩
  · intro h
    by_cases hc : t - n.ReportTime > 1000000000 * cfg.defaultNodeTimeOutSec
    · rw [hpos hc] at h
      exact Bool.noConfusion h
    · rw [hneg hc] at h
      exact h
  · intro t1 t2 t3 h
    have hsweep : (n.setNodeAlive t1).checkHeartbeat cfg t2 =
        { n.setNodeAlive t1 with IsActive := false } := by
      unfold MetaNode.checkHeartbeat
      rw [if_pos ((timeSince_gt_iff cfg t2 (n.setNodeAlive t1).ReportTime hrep).mpr h)]
    rw [hsweep]
    exact ⟨rfl, rfl, rfl⟩

/-- C11, on the sample node with a timeout of 180 seconds: a heartbeat at
instant 0, a sweep 181 seconds later, a heartbeat a year later. -/
theorem liveness_state_machine_witness :
    ((sampleNode.setNodeAlive 0).checkHeartbeat sampleConsts 181000000000).IsActive = false ∧
    ((sampleNode.setNodeAlive 0).checkHeartbeat sampleConsts 180000000000).IsActive = true ∧
    ((((sampleNode.setNodeAlive 0).checkHeartbeat sampleConsts
      181000000000).setNodeAlive 31536000000000000).IsActive = true) ∧
    ((((sampleNode.setNodeAlive 0).checkHeartbeat sampleConsts
      181000000000).setNodeAlive 31536000000000000).ReportTime = 31536000000000000) :=
  ⟨((liveness_state_machine sampleConsts sampleNode 0 (by decide)).2.2.2.2
      0 181000000000 31536000000000000 (by decide)).1,
    by decide,
    ((liveness_state_machine sampleConsts sampleNode 0 (by decide)).2.2.2.2
      0 181000000000 31536000000000000 (by decide)).2.1,
    ((liveness_state_machine sampleConsts sampleNode 0 (by decide)).2.2.2.2
      0 181000000000 31536000000000000 (by decide)).2.2⟩

/-- C12. `isTinyExtent id` is true exactly when `5000000 <= id < 5000128`, and
`checkFileInternal` runs `checkChunkFile` on a record whose name parses to such
an ID and `checkExtentFile` on a record whose name parses to any other ID: the
scan of a partition that holds that one record is that run, and in the scan of
any partition the record contributes the warnings of that run. -/
theorem isTinyExtent_iff_and_routing (srt : List FileCrc → List FileCrc) (cfg : Consts)
    (now : Int) (p : DataPartition) (live : List DataReplica) (cid : String)
    (fc : FileInCore) (id : Nat) :
    (isTinyExtent id = true ↔ 5000000 ≤ id ∧ id < 5000128) ∧
    (parseUint64 fc.Name = some id →
      checkFileInternal srt cfg now { p with FileInCoreMap := [fc] } live cid =
        if 5000000 ≤ id ∧ id < 5000128 then checkChunkFile cfg now p fc live cid
        else checkExtentFile srt cfg now p fc live cid) ∧
    (parseUint64 fc.Name = some id → ∀ (rest : List FileInCore) (acc : List Warning),
      checkFileLoop srt cfg now p live cid (fc :: rest) acc =
        if (if 5000000 ≤ id ∧ id < 5000128 then checkChunkFile cfg now p fc live cid
            else checkExtentFile srt cfg now p fc live cid).panicked = true then
          Outcome.panic (acc ++
            (if 5000000 ≤ id ∧ id < 5000128 then checkChunkFile cfg now p fc live cid
              else checkExtentFile srt cfg now p fc live cid).warns)
        else
          checkFileLoop srt cfg now p live cid rest (acc ++
            (if 5000000 ≤ id ∧ id < 5000128 then checkChunkFile cfg now p fc live cid
              else checkExtentFile srt cfg now p fc live cid).warns)) := by
  have hstep : parseUint64 fc.Name = some id → ∀ (rest : List FileInCore) (acc : List Warning),
      checkFileLoop srt cfg now p live cid (fc :: rest) acc =
        if (if 5000000 ≤ id ∧ id < 5000128 then checkChunkFile cfg now p fc live cid
            else checkExtentFile srt cfg now p fc live cid).panicked = true then
          Outcome.panic (acc ++
            (if 5000000 ≤ id ∧ id < 5000128 then checkChunkFile cfg now p fc live cid
              else checkExtentFile srt cfg now p fc live cid).warns)
        else
          checkFileLoop srt cfg now p live cid rest (acc ++
            (if 5000000 ≤ id ∧ id < 5000128 then checkChunkFile cfg now p fc live cid
              else checkExtentFile srt cfg now p fc live cid).warns) := by
    intro h rest acc
    rw [checkFileLoop_cons srt cfg now p live cid fc rest acc id h]
    by_cases ht : isTinyExtent id = true
    · rw [if_pos ht, if_pos ((isTinyExtent_iff id).mp ht)]
    · rw [if_neg ht, if_neg (fun h' => ht ((isTinyExtent_iff id).mpr h'))]
  refine ⟨isTinyExtent_iff id, ?_, hstep⟩
  intro h
  show checkFileLoop srt cfg now { p with FileInCoreMap := [fc] } live cid [fc] [] = _
  rw [checkFileLoop_partition srt cfg now { p with FileInCoreMap := [fc] } p live cid rfl,
    hstep h [] []]
  simp only [List.nil_append, checkFileLoop]
  by_cases hp : (if 5000000 ≤ id ∧ id < 5000128 then checkChunkFile cfg now p fc live cid
      else checkExtentFile srt cfg now p fc live cid).panicked = true
  · rw [if_pos hp]
    exact Outcome.eq_of_panicked_true hp
  · rw [if_neg hp]
    exact Outcome.eq_of_panicked_false (by simpa using hp)

/-- C12, on the boundaries of the range and on two sample records. -/
theorem isTinyExtent_iff_and_routing_witness :
    isTinyExtent 4999999 = false ∧ isTinyExtent 5000000 = true ∧
    isTinyExtent 5000127 = true ∧ isTinyExtent 5000128 = false ∧
    checkFileInternal goInsertionSort sampleConsts 100000
        { samplePartition with FileInCoreMap := [tinySizesDiffer] } liveABC "c1" =
      (if 5000000 ≤ 5000001 ∧ 5000001 < 5000128 then
        checkChunkFile sampleConsts 100000 samplePartition tinySizesDiffer liveABC "c1"
      else
        checkExtentFile goInsertionSort sampleConsts 100000 samplePartition tinySizesDiffer
          liveABC "c1") ∧
    checkFileInternal goInsertionSort sampleConsts 100000
        { samplePartition with FileInCoreMap := [fileAllDiffer] } liveABC "c1" =
      (if 5000000 ≤ 17 ∧ 17 < 5000128 then
        checkChunkFile sampleConsts 100000 samplePartition fileAllDiffer liveABC "c1"
      else
        checkExtentFile goInsertionSort sampleConsts 100000 samplePartition fileAllDiffer
          liveABC "c1") :=
  ⟨by decide, by decide, by decide, by decide,
    (isTinyExtent_iff_and_routing goInsertionSort sampleConsts 100000 samplePartition liveABC
      "c1" tinySizesDiffer 5000001).2.1 (by decide),
    (isTinyExtent_iff_and_routing goInsertionSort sampleConsts 100000 samplePartition liveABC
      "c1" fileAllDiffer 17).2.1 (by decide)⟩

/-- C13: with live replicas `A`, `B`, `C`, a tiny extent that is due and has no
collected meta makes `checkChunkFile`, and with it the scan of the partition,
end in a panic; the record after it, which alone yields a "can not repair"
warning, is not checked. -/
theorem checkFileInternal_aborts_on_tiny_without_meta :
    liveABC ≠ [] ∧
    (parseUint64 tinyNoMeta.Name).map isTinyExtent = some true ∧
    tinyNoMeta.isCheckCrc sampleConsts 100000 = true ∧
    (tinyNoMeta.needCrcRepair liveABC).1 = [] ∧
    checkChunkFile sampleConsts 100000 partitionTinyFirst tinyNoMeta liveABC "c1" =
      Outcome.panic [] ∧
    checkFileInternal goInsertionSort sampleConsts 100000 partitionTinyFirst liveABC "c1" =
      Outcome.panic [] ∧
    (checkFileInternal goInsertionSort sampleConsts 100000
        { partitionTinyFirst with FileInCoreMap := [fileAllDiffer] } liveABC "c1").warns.length
      = 1 := by
  refine ⟨by decide, by decide, by decide, by decide, by decide, by decide, by decide⟩

/-- C14. For a record that is due, the warnings of `checkExtentFile` contain the
missing-replica warning exactly when fewer metas were collected than there are
live replicas and `now - LastModify` (in `int64`, as the code takes it) exceeds
`checkMissFileReplicaTime`; it is then emitted once, whatever the checksums are,
and when no repair is needed it is the only warning.  `checkChunkFile` never
emits it. -/
theorem missReplica_warning_iff (srt : List FileCrc → List FileCrc) (cfg : Consts)
    (now : Int) (p : DataPartition) (fc : FileInCore) (live : List DataReplica)
    (cid : String) (helig : fc.isCheckCrc cfg now = true) :
    ((∃ w ∈ (checkExtentFile srt cfg now p fc live cid).warns, w.isMissReplica = true) ↔
      (fc.needCrcRepair live).1.length < live.length ∧
        wrapInt64 (now - fc.LastModify) > cfg.checkMissFileReplicaTime) ∧
    (checkExtentFile srt cfg now p fc live cid).warns.filter Warning.isMissReplica =
      (if (fc.needCrcRepair live).1.length < live.length ∧
          wrapInt64 (now - fc.LastModify) > cfg.checkMissFileReplicaTime then
        [Warning.missReplica cid p.PartitionID fc.Name fc.getFileMetaAddrs
          (live.map (fun replica => replica.Addr))]
      else []) ∧
    ((fc.needCrcRepair live).2 = false →
      (checkExtentFile srt cfg now p fc live cid).warns =
        (if (fc.needCrcRepair live).1.length < live.length ∧
            wrapInt64 (now - fc.LastModify) > cfg.checkMissFileReplicaTime then
          [Warning.missReplica cid p.PartitionID fc.Name fc.getFileMetaAddrs
            (live.map (fun replica => replica.Addr))]
        else [])) ∧
    (checkChunkFile cfg now p fc live cid).warns.filter Warning.isMissReplica = [] := by
  obtain ⟨ws, hws, hnot, hnr⟩ := checkExtentFile_warns_prefix srt cfg now p fc live cid helig
  have hfws : ws.filter Warning.isMissReplica = [] := by
    rw [List.filter_eq_nil_iff]
    intro w hw
    simp [hnot w hw]
  have hfilter : (checkExtentFile srt cfg now p fc live cid).warns.filter Warning.isMissReplica =
      (if (fc.needCrcRepair live).1.length < live.length ∧
          wrapInt64 (now - fc.LastModify) > cfg.checkMissFileReplicaTime then
        [Warning.missReplica cid p.PartitionID fc.Name fc.getFileMetaAddrs
          (live.map (fun replica => replica.Addr))]
      else []) := by
    rw [hws, List.filter_append, hfws, List.append_nil]
    split
    · rfl
    · rfl
  refine ⟨?_, hfilter, ?_, ?_⟩
  · constructor
    · rintro ⟨w, hw, hmiss⟩
      have hmem : w ∈ (checkExtentFile srt cfg now p fc live cid).warns.filter
          Warning.isMissReplica := List.mem_filter.mpr ⟨hw, hmiss⟩
      rw [hfilter] at hmem
      by_contra hc
      rw [if_neg hc] at hmem
      exact absurd hmem (List.not_mem_nil _)
    · intro hc
      refine ⟨Warning.missReplica cid p.PartitionID fc.Name fc.getFileMetaAddrs
        (live.map (fun replica => replica.Addr)), ?_, rfl⟩
      rw [hws, if_pos hc]
      simp
  · intro h
    rw [hws, hnr h, List.append_nil]
  · rw [List.filter_eq_nil_iff]
    intro w hw
    have := checkChunkFile_warns cfg now p fc live cid w hw
    cases w <;> simp_all [Warning.isSizeNotMatch, Warning.isMissReplica]

/-- C14, with live replicas `A`, `B`, `C` and metas of `A` and `B` only, which
agree: the missing-replica warning is the only warning. -/
theorem missReplica_warning_iff_witness :
    (fileMissingC.needCrcRepair liveABC).2 = false ∧
    (checkExtentFile goInsertionSort sampleConsts 100000 samplePartition fileMissingC liveABC
        "c1").warns =
      [Warning.missReplica "c1" 5 "17" ["A", "B"] ["A", "B", "C"]] ∧
    ((∃ w ∈ (checkExtentFile goInsertionSort sampleConsts 100000 samplePartition fileMissingC
        liveABC "c1").warns, w.isMissReplica = true) ↔
      (fileMissingC.needCrcRepair liveABC).1.length < liveABC.length ∧
        wrapInt64 (100000 - fileMissingC.LastModify) > sampleConsts.checkMissFileReplicaTime) :=
  ⟨by decide, by decide,
    (missReplica_warning_iff goInsertionSort sampleConsts 100000 samplePartition fileMissingC
      liveABC "c1" (by decide)).1⟩

/-- C15. The checksums of the groups `calculateCrcCount` returns are the
distinct checksums of the metas in the order of their first appearance, without
repetition; the count of a group is the number of metas with its checksum, its
representative is the first meta with its checksum, and the counts add up to
the number of metas. -/
theorem calculateCrcCount_spec (fms : List FileMetaOnNode) :
    (calculateCrcCount fms).map (fun g => g.crc) =
      distinctInOrder (fms.map (fun fm => fm.Crc)) ∧
    ((calculateCrcCount fms).map (fun g => g.crc)).Nodup ∧
    (∀ c, c ∈ (calculateCrcCount fms).map (fun g => g.crc) ↔ ∃ fm ∈ fms, fm.Crc = c) ∧
    (∀ g ∈ calculateCrcCount fms,
      g.count = fms.countP (fun fm => fm.Crc == g.crc) ∧
      g.meta = fms.find? (fun fm => fm.Crc == g.crc) ∧
      ∃ fm ∈ fms, g.meta = some fm ∧ fm.Crc = g.crc) ∧
    ((calculateCrcCount fms).map (fun g => g.count)).sum = fms.length ∧
    calculateCrcCount fms =
      (distinctInOrder (fms.map (fun fm => fm.Crc))).map (fun c =>
        { crc := c, count := fms.countP (fun fm => fm.Crc == c),
          meta := fms.find? (fun fm => fm.Crc == c) }) := by
  have hgr := calculateCrcCount_groups fms
  have hkeys : (calculateCrcCount fms).map (fun g => g.crc) =
      distinctInOrder (fms.map (fun fm => fm.Crc)) := by
    have := calculateCrcCountFrom_keys fms []
    simpa [calculateCrcCount] using this
  refine ⟨hkeys, hgr.nodup, ?_, ?_, ?_, ?_⟩
  · intro c
    rw [hkeys, mem_distinctInOrder, List.mem_map]
  · intro g hg
    obtain ⟨fm, hmeta, hfm, hcrc, -⟩ := hgr.meta_some hg
    exact ⟨hgr.count_eq g hg, hgr.meta_eq g hg, fm, hfm, hmeta, hcrc⟩
  · have := calculateCrcCountFrom_sum fms []
    simpa [calculateCrcCount] using this
  · rw [← hkeys, List.map_map]
    conv_lhs => rw [← List.map_id (calculateCrcCount fms)]
    apply List.map_congr_left
    intro g hg
    have h1 := hgr.count_eq g hg
    have h2 := hgr.meta_eq g hg
    cases g
    simp_all

/-- C15, on metas with checksums 7, 3, 7, 7, 3, 9. -/
theorem calculateCrcCount_spec_witness :
    calculateCrcCount [sampleMeta "A" 7 10, sampleMeta "B" 3 10, sampleMeta "C" 7 10,
        sampleMeta "D" 7 10, sampleMeta "E" 3 10, sampleMeta "F" 9 10] =
      [{ crc := 7, count := 3, meta := some (sampleMeta "A" 7 10) },
        { crc := 3, count := 2, meta := some (sampleMeta "B" 3 10) },
        { crc := 9, count := 1, meta := some (sampleMeta "F" 9 10) }] ∧
    distinctInOrder [7, 3, 7, 7, 3, 9] = [7, 3, 9] ∧
    ((calculateCrcCount [sampleMeta "A" 7 10, sampleMeta "B" 3 10, sampleMeta "C" 7 10,
        sampleMeta "D" 7 10, sampleMeta "E" 3 10, sampleMeta "F" 9 10]).map
          (fun g => g.count)).sum = 6 :=
  ⟨by decide, by decide,
    (calculateCrcCount_spec [sampleMeta "A" 7 10, sampleMeta "B" 3 10, sampleMeta "C" 7 10,
      sampleMeta "D" 7 10, sampleMeta "E" 3 10, sampleMeta "F" 9 10]).2.2.2.2.1⟩

/-- C16. A record whose name `strconv.ParseUint(name, 10, 64)` rejects is passed
over by `checkFileInternal`: the scan of a partition that holds only that record
returns without a warning, and the scan of any partition runs exactly as the
scan of the partition without that record.  Names that are not numeric, empty,
negative or out of range are rejected. -/
theorem checkFileInternal_skips_unparsable (srt : List FileCrc → List FileCrc)
    (cfg : Consts) (now : Int) (p : DataPartition) (live : List DataReplica) (cid : String)
    (fc : FileInCore) (pre post : List FileInCore) (h : parseUint64 fc.Name = none) :
    checkFileInternal srt cfg now { p with FileInCoreMap := [fc] } live cid = Outcome.ret [] ∧
    checkFileInternal srt cfg now { p with FileInCoreMap := pre ++ fc :: post } live cid =
      checkFileInternal srt cfg now { p with FileInCoreMap := pre ++ post } live cid ∧
    parseUint64 "extent_17" = none ∧ parseUint64 "" = none ∧ parseUint64 "-17" = none ∧
    parseUint64 "18446744073709551616" = none ∧
    parseUint64 "18446744073709551615" = some 18446744073709551615 := by
  refine ⟨?_, ?_, by decide, by decide, by decide, by decide, by decide⟩
  · show checkFileLoop srt cfg now { p with FileInCoreMap := [fc] } live cid [fc] [] = _
    rw [checkFileLoop, h]
    rfl
  · show checkFileLoop srt cfg now { p with FileInCoreMap := pre ++ fc :: post } live cid
        (pre ++ fc :: post) [] =
      checkFileLoop srt cfg now { p with FileInCoreMap := pre ++ post } live cid
        (pre ++ post) []
    rw [checkFileLoop_partition srt cfg now { p with FileInCoreMap := pre ++ fc :: post } p
        live cid rfl,
      checkFileLoop_partition srt cfg now { p with FileInCoreMap := pre ++ post } p live cid
        rfl,
      checkFileLoop_skip srt cfg now p live cid fc h]

/-- C16, on a partition that holds a record named `extent_17` between two
records that are checked. -/
theorem checkFileInternal_skips_unparsable_witness :
    parseUint64 fileBadName.Name = none ∧
    checkFileInternal goInsertionSort sampleConsts 100000
        { samplePartition with FileInCoreMap := [fileBadName] } liveABC "c1" = Outcome.ret [] ∧
    checkFileInternal goInsertionSort sampleConsts 100000
        { samplePartition with FileInCoreMap := [fileTwoAgree] ++ fileBadName :: [fileAllDiffer] }
        liveABC "c1" =
      checkFileInternal goInsertionSort sampleConsts 100000
        { samplePartition with FileInCoreMap := [fileTwoAgree] ++ [fileAllDiffer] }
        liveABC "c1" ∧
    (checkFileInternal goInsertionSort sampleConsts 100000
        { samplePartition with FileInCoreMap := [fileTwoAgree] ++ fileBadName :: [fileAllDiffer] }
        liveABC "c1").warns.map Warning.kind = [WarningKind.badCrc, WarningKind.cannotRepair] :=
  ⟨by decide,
    (checkFileInternal_skips_unparsable goInsertionSort sampleConsts 100000 samplePartition
      liveABC "c1" fileBadName [fileTwoAgree] [fileAllDiffer] (by decide)).1,
    (checkFileInternal_skips_unparsable goInsertionSort sampleConsts 100000 samplePartition
      liveABC "c1" fileBadName [fileTwoAgree] [fileAllDiffer] (by decide)).2.1,
    by decide⟩

/-- C17. For a record that is due and whose two most frequent checksums `c1`
and `c2` are carried by equally many metas, at least two each:
`checkExtentFile` returns normally without a "can not repair" warning and with
one bad-replica warning for every group but one; the checksum of the spared
group, the last of the sorted array, is carried by as many metas as `c1`; the
first collected replica of every other checksum is named bad, and among the
named replicas is one whose checksum is carried by as many metas as the spared
one. -/
theorem checkExtentFile_tie_at_top {srt : List FileCrc → List FileCrc}
    (hs : SortsByCount srt) (cfg : Consts) (now : Int) (p : DataPartition)
    (fc : FileInCore) (live : List DataReplica) (cid : String)
    (helig : fc.isCheckCrc cfg now = true) (c1 c2 : Nat) (hne : c1 ≠ c2)
    (h2 : 2 ≤ (fc.needCrcRepair live).1.countP (fun fm => fm.Crc == c1))
    (htie : (fc.needCrcRepair live).1.countP (fun fm => fm.Crc == c2) =
      (fc.needCrcRepair live).1.countP (fun fm => fm.Crc == c1))
    (hmost : ∀ c',
      (fc.needCrcRepair live).1.countP (fun fm => fm.Crc == c') ≤
        (fc.needCrcRepair live).1.countP (fun fm => fm.Crc == c1)) :
    (checkExtentFile srt cfg now p fc live cid).panicked = false ∧
    (checkExtentFile srt cfg now p fc live cid).warns.filter Warning.isCannotRepair = [] ∧
    ((checkExtentFile srt cfg now p fc live cid).warns.filter Warning.isBadCrc).length =
      ((fc.needCrcRepair live).1.map (fun fm => fm.Crc)).toFinset.card - 1 ∧
    ∃ top, (srt (calculateCrcCount (fc.needCrcRepair live).1)).getLast? = some top ∧
      (fc.needCrcRepair live).1.countP (fun fm => fm.Crc == top.crc) =
        (fc.needCrcRepair live).1.countP (fun fm => fm.Crc == c1) ∧
      (∀ fm ∈ (fc.needCrcRepair live).1, fm.Crc ≠ top.crc →
        ∃ rep, (fc.needCrcRepair live).1.find? (fun y => y.Crc == fm.Crc) = some rep ∧
          ∃ w ∈ (checkExtentFile srt cfg now p fc live cid).warns,
            w.isBadCrc = true ∧ w.badAddr? = some rep.LocAddr) ∧
      (∃ rep ∈ (fc.needCrcRepair live).1, rep.Crc ≠ top.crc ∧
        (fc.needCrcRepair live).1.countP (fun fm => fm.Crc == rep.Crc) =
          (fc.needCrcRepair live).1.countP (fun fm => fm.Crc == top.crc) ∧
        ∃ w ∈ (checkExtentFile srt cfg now p fc live cid).warns,
          w.isBadCrc = true ∧ w.badAddr? = some rep.LocAddr) := by
  obtain ⟨x1, hx1, hx1c⟩ := List.countP_pos_iff.mp (show 0 <
    (fc.needCrcRepair live).1.countP (fun fm => fm.Crc == c1) by omega)
  obtain ⟨x2, hx2, hx2c⟩ := List.countP_pos_iff.mp (show 0 <
    (fc.needCrcRepair live).1.countP (fun fm => fm.Crc == c2) by omega)
  have hx1c' : x1.Crc = c1 := by simpa using hx1c
  have hx2c' : x2.Crc = c2 := by simpa using hx2c
  obtain ⟨w1, hw1, hcase⟩ := checkExtentFile_shape hs cfg now p fc live cid helig
  rcases hcase with ⟨hnr, -⟩ | ⟨hnr, init, top, L, hcat, hperm, hmax, hsub⟩
  · exfalso
    cases hh : (fc.needCrcRepair live).1.head? with
    | none =>
      rw [List.head?_eq_none_iff] at hh
      rw [hh] at hx1
      exact absurd hx1 (List.not_mem_nil _)
    | some fm0 =>
      have hall : ∀ y ∈ (fc.needCrcRepair live).1, y.Crc = fm0.Crc := by
        intro y hy
        by_contra hne'
        have := (needCrcRepair_snd fc live).mpr ⟨fm0, hh, y, hy, hne'⟩
        rw [hnr] at this
        exact Bool.noConfusion this
      exact hne (by rw [← hx1c', ← hx2c', hall x1 hx1, hall x2 hx2])
  · have hgr := calculateCrcCount_groups (fc.needCrcRepair live).1
    have htop : top ∈ calculateCrcCount (fc.needCrcRepair live).1 :=
      hperm.mem_iff.mp (by simp)
    obtain ⟨g1, hg1, hg1c⟩ := hgr.covers x1 hx1
    have hge := hmax g1 hg1
    rw [hgr.count_eq g1 hg1, hg1c, hx1c'] at hge
    have htopcount := hgr.count_eq top htop
    have hle := hmost top.crc
    have hcanon : (fc.needCrcRepair live).1.countP (fun fm => fm.Crc == top.crc) =
        (fc.needCrcRepair live).1.countP (fun fm => fm.Crc == c1) := by omega
    have hnamed : ∀ fm ∈ (fc.needCrcRepair live).1, fm.Crc ≠ top.crc →
        ∃ rep, (fc.needCrcRepair live).1.find? (fun y => y.Crc == fm.Crc) = some rep ∧
          rep ∈ (fc.needCrcRepair live).1 ∧ rep.Crc = fm.Crc ∧
          Warning.badCrc cid p.PartitionID fc.Name rep.LocAddr L ∈
            w1 ++ init.map (fun g => Warning.badCrc cid p.PartitionID fc.Name g.repAddr L) := by
      intro fm hfm hnetop
      obtain ⟨g, hg, hgc'⟩ := hgr.covers fm hfm
      have hg' : g ∈ init ++ [top] := hperm.mem_iff.mpr hg
      rw [List.mem_append, List.mem_singleton] at hg'
      rcases hg' with hgi | rfl
      · obtain ⟨-, rep, hrep, -, hrepcrc, hfind, haddr⟩ := init_group_rep hperm hgi
        refine ⟨rep, by rw [← hgc']; exact hfind, hrep, by rw [hrepcrc, hgc'], ?_⟩
        rw [← haddr]
        exact List.mem_append_right _ (List.mem_map.mpr ⟨g, hgi, rfl⟩)
      · exact absurd hgc'.symm hnetop
    rcases hsub with ⟨h1, -⟩ | ⟨-, hout⟩
    · omega
    · rw [hout]
      refine ⟨rfl, ?_, ?_, top, by rw [hcat]; simp, hcanon, ?_, ?_⟩
      · show ((w1 ++ _).filter Warning.isCannotRepair) = []
        rw [List.filter_append, filter_cannotRepair_missReplica hw1, filter_cannotRepair_map]
        rfl
      · show ((w1 ++ _).filter Warning.isBadCrc).length = _
        rw [List.filter_append, filter_badCrc_missReplica hw1, filter_badCrc_map]
        have hlen := hperm.length_eq
        rw [hgr.length_eq] at hlen
        simp only [List.nil_append, List.length_map]
        simp only [List.length_append, List.length_singleton] at hlen
        omega
      · intro fm hfm hnetop
        obtain ⟨rep, hfind, -, -, hmem⟩ := hnamed fm hfm hnetop
        exact ⟨rep, hfind, _, hmem, rfl, rfl⟩
      · by_cases ht1 : c1 = top.crc
        · have hnetop : x2.Crc ≠ top.crc := by
            rw [hx2c', ← ht1]; exact fun e => hne e.symm
          obtain ⟨rep, -, hrep, hrepcrc, hmem⟩ := hnamed x2 hx2 hnetop
          refine ⟨rep, hrep, by rw [hrepcrc]; exact hnetop, ?_, _, hmem, rfl, rfl⟩
          rw [hrepcrc, hx2c', htie, hcanon]
        · have hnetop : x1.Crc ≠ top.crc := by rw [hx1c']; exact ht1
          obtain ⟨rep, -, hrep, hrepcrc, hmem⟩ := hnamed x1 hx1 hnetop
          refine ⟨rep, hrep, by rw [hrepcrc]; exact hnetop, ?_, _, hmem, rfl, rfl⟩
          rw [hrepcrc, hx1c', hcanon]

/-- C17, at metas `A:1, B:1, C:2, D:2` with the insertion sort: the group of
checksum 2 ends last, the only warning names `A`, whose checksum 1 is carried by
two metas as well. -/
theorem checkExtentFile_tie_at_top_witness :
    (checkExtentFile goInsertionSort sampleConsts 100000 samplePartition fileTie liveABCD
        "c1").warns.map Warning.badAddr? = [some "A"] ∧
    ((checkExtentFile goInsertionSort sampleConsts 100000 samplePartition fileTie liveABCD
        "c1").panicked = false ∧
    (checkExtentFile goInsertionSort sampleConsts 100000 samplePartition fileTie liveABCD
        "c1").warns.filter Warning.isCannotRepair = [] ∧
    ((checkExtentFile goInsertionSort sampleConsts 100000 samplePartition fileTie liveABCD
        "c1").warns.filter Warning.isBadCrc).length =
      ((fileTie.needCrcRepair liveABCD).1.map (fun fm => fm.Crc)).toFinset.card - 1) :=
  ⟨by decide,
    ⟨(checkExtentFile_tie_at_top goInsertionSort_sorts sampleConsts 100000 samplePartition
        fileTie liveABCD "c1" (by decide) 1 2 (by decide) (by decide) (by decide)
        most_frequent_fileTie).1,
      (checkExtentFile_tie_at_top goInsertionSort_sorts sampleConsts 100000 samplePartition
        fileTie liveABCD "c1" (by decide) 1 2 (by decide) (by decide) (by decide)
        most_frequent_fileTie).2.1,
      (checkExtentFile_tie_at_top goInsertionSort_sorts sampleConsts 100000 samplePartition
        fileTie liveABCD "c1" (by decide) 1 2 (by decide) (by decide) (by decide)
        most_frequent_fileTie).2.2.1⟩⟩

/-- C18. When `needCrcRepair` reports that repair is needed it has collected at
least two metas and `calculateCrcCount` puts them in at least two groups; the
sorted array then has an element at index `len - 1`, the count of that element
is the largest of all groups, and neither `checkExtentFile` nor
`generateFileCrcTask` ends in a panic. -/
theorem needRepair_last_index_in_range {srt : List FileCrc → List FileCrc}
    (hs : SortsByCount srt) (cfg : Consts) (now : Int) (p : DataPartition)
    (fc : FileInCore) (live : List DataReplica) (cid : String)
    (hnr : (fc.needCrcRepair live).2 = true) :
    2 ≤ (fc.needCrcRepair live).1.length ∧
    2 ≤ (calculateCrcCount (fc.needCrcRepair live).1).length ∧
    (srt (calculateCrcCount (fc.needCrcRepair live).1)).length - 1 <
      (srt (calculateCrcCount (fc.needCrcRepair live).1)).length ∧
    (∃ top,
      (srt (calculateCrcCount (fc.needCrcRepair live).1))[
          (srt (calculateCrcCount (fc.needCrcRepair live).1)).length - 1]? = some top ∧
      (srt (calculateCrcCount (fc.needCrcRepair live).1)).getLast? = some top ∧
      (∀ g ∈ calculateCrcCount (fc.needCrcRepair live).1, g.count ≤ top.count) ∧
      (∀ g ∈ srt (calculateCrcCount (fc.needCrcRepair live).1), g.count ≤ top.count)) ∧
    (checkExtentFile srt cfg now p fc live cid).panicked = false ∧
    (fc.generateFileCrcTask srt cfg now p.PartitionID live cid).2.panicked = false := by
  obtain ⟨hlen, hgroups⟩ := needRepair_two_groups fc live hnr
  have hG : calculateCrcCount (fc.needCrcRepair live).1 ≠ [] := by
    intro h
    rw [h] at hgroups
    simp at hgroups
  obtain ⟨init, top, hcat, hperm, hmax⟩ := sorted_concat hs hG
  have hpan := checkExtentFile_not_panicked hs cfg now p fc live cid
  refine ⟨hlen, hgroups, ?_, ⟨top, ?_, ?_, hmax, ?_⟩, hpan, ?_⟩
  · rw [hcat]; simp
  · rw [hcat]; simp
  · rw [hcat]; simp
  · intro g hg
    rw [hcat] at hg
    exact hmax g (hperm.mem_iff.mp hg)
  · rw [generateFileCrcTask_eq]
    exact hpan

/-- C18, at metas `A:1, B:1, C:2`: two groups, the last of the sorted array is
the group of checksum 1 with count 2. -/
theorem needRepair_last_index_in_range_witness :
    (fileTwoAgree.needCrcRepair liveABC).2 = true ∧
    (calculateCrcCount (fileTwoAgree.needCrcRepair liveABC).1).length = 2 ∧
    (goInsertionSort (calculateCrcCount (fileTwoAgree.needCrcRepair liveABC).1))[1]? =
      some { crc := 1, count := 2, meta := some (sampleMeta "A" 1 10) } ∧
    (checkExtentFile goInsertionSort sampleConsts 100000 samplePartition fileTwoAgree liveABC
      "c1").panicked = false ∧
    (fileTwoAgree.generateFileCrcTask goInsertionSort sampleConsts 100000
      samplePartition.PartitionID liveABC "c1").2.panicked = false :=
  ⟨by decide, by decide, by decide,
    (needRepair_last_index_in_range goInsertionSort_sorts sampleConsts 100000 samplePartition
      fileTwoAgree liveABC "c1" (by decide)).2.2.2.2.1,
    (needRepair_last_index_in_range goInsertionSort_sorts sampleConsts 100000 samplePartition
      fileTwoAgree liveABC "c1" (by decide)).2.2.2.2.2⟩

/-- C19. For every sorting function, record, live replicas, partition ID,
cluster ID and time, `generateFileCrcTask` returns an empty task list, ends as
`checkExtentFile` ends (normally or in a panic), and emits the same warnings but
for the word in the text of the "can not repair" warning: the same kinds in the
same order, naming the same nodes. -/
theorem generateFileCrcTask_same_decisions (srt : List FileCrc → List FileCrc)
    (cfg : Consts) (now : Int) (p : DataPartition) (fc : FileInCore)
    (live : List DataReplica) (cid : String) :
    (fc.generateFileCrcTask srt cfg now p.PartitionID live cid).1 = [] ∧
    (fc.generateFileCrcTask srt cfg now p.PartitionID live cid).2.panicked =
      (checkExtentFile srt cfg now p fc live cid).panicked ∧
    (fc.generateFileCrcTask srt cfg now p.PartitionID live cid).2.warns.map
        (fun w => (w.kind, w.badAddr?)) =
      (checkExtentFile srt cfg now p fc live cid).warns.map (fun w => (w.kind, w.badAddr?)) ∧
    (fc.generateFileCrcTask srt cfg now p.PartitionID live cid).2.warns =
      (checkExtentFile srt cfg now p fc live cid).warns.map (Warning.withWhat "CRC") := by
  rw [generateFileCrcTask_eq]
  refine ⟨rfl, rfl, ?_, rfl⟩
  show ((checkExtentFile srt cfg now p fc live cid).warns.map (Warning.withWhat "CRC")).map
      (fun w => (w.kind, w.badAddr?)) = _
  rw [List.map_map]
  apply List.map_congr_left
  intro w _
  simp [Warning.kind_withWhat, Warning.badAddr_withWhat]

/-- C19, at metas that all differ: both functions emit one "can not repair"
warning, with the words `CRC` and `ExtentOffset`. -/
theorem generateFileCrcTask_same_decisions_witness :
    fileAllDiffer.generateFileCrcTask goInsertionSort sampleConsts 100000 5 liveABC "c1" =
      ([], Outcome.ret [Warning.cannotRepair "c1" 5 "17" "CRC"
        [⟨"A", 1, 1⟩, ⟨"B", 1, 2⟩, ⟨"C", 1, 3⟩]]) ∧
    checkExtentFile goInsertionSort sampleConsts 100000 samplePartition fileAllDiffer liveABC
        "c1" =
      Outcome.ret [Warning.cannotRepair "c1" 5 "17" "ExtentOffset"
        [⟨"A", 1, 1⟩, ⟨"B", 1, 2⟩, ⟨"C", 1, 3⟩]] ∧
    (fileAllDiffer.generateFileCrcTask goInsertionSort sampleConsts 100000
        samplePartition.PartitionID liveABC "c1").2.warns.map (fun w => (w.kind, w.badAddr?)) =
      (checkExtentFile goInsertionSort sampleConsts 100000 samplePartition fileAllDiffer
        liveABC "c1").warns.map (fun w => (w.kind, w.badAddr?)) :=
  ⟨by decide, by decide,
    (generateFileCrcTask_same_decisions goInsertionSort sampleConsts 100000 samplePartition
      fileAllDiffer liveABC "c1").2.2.1⟩

/-- C20. `updateMetric` stores the reported `Total`, `Used`, rack and partition
list, the number of reported partitions and the given threshold, leaves the
other fields alone, sets `Ratio` to `0` when `Total` is 0 and to the `float64`
quotient `float64(Used)/float64(Total)` otherwise, and sets `MaxMemAvailWeight`
to `Total - Used` modulo `2^64`.  For `uint64` values of `Total` and `Used`,
`MaxMemAvailWeight + Used = Total` holds exactly when `Used <= Total`, and so
does `MaxMemAvailWeight <= Total`; when `Used > Total` the result is larger than
`Total`. -/
theorem updateMetric_spec (n : MetaNode) (resp : MetaNodeHeartbeatResponse) (threshold : Flt)
    (hT : resp.Total < 2 ^ 64) (hU : resp.Used < 2 ^ 64) :
    n.updateMetric resp threshold =
      { n with
        metaPartitionInfos := resp.MetaPartitionInfo
        MetaPartitionCount := (resp.MetaPartitionInfo.length : Int)
        Total := resp.Total
        Used := resp.Used
        Ratio :=
          if resp.Total = 0 then Flt.zero64
          else Flt.div binary64 (Flt.ofUInt64 resp.Used) (Flt.ofUInt64 resp.Total)
        MaxMemAvailWeight := (resp.Total + 2 ^ 64 - resp.Used) % 2 ^ 64
        RackName := resp.RackName
        Threshold := threshold } ∧
    ((n.updateMetric resp threshold).MaxMemAvailWeight + resp.Used = resp.Total ↔
      resp.Used ≤ resp.Total) ∧
    ((n.updateMetric resp threshold).MaxMemAvailWeight ≤ resp.Total ↔
      resp.Used ≤ resp.Total) ∧
    (resp.Used ≤ resp.Total →
      (n.updateMetric resp threshold).MaxMemAvailWeight = resp.Total - resp.Used) ∧
    (resp.Total < resp.Used →
      (n.updateMetric resp threshold).MaxMemAvailWeight = resp.Total + 2 ^ 64 - resp.Used ∧
      resp.Total < (n.updateMetric resp threshold).MaxMemAvailWeight) ∧
    (n.updateMetric resp threshold).MaxMemAvailWeight < 2 ^ 64 := by
  have hM : (((resp.Total : Int) - (resp.Used : Int)) % 2 ^ 64).toNat =
      (resp.Total + 2 ^ 64 - resp.Used) % 2 ^ 64 := by
    have hnn : (0 : Int) ≤ ((resp.Total : Int) - (resp.Used : Int)) % 2 ^ 64 :=
      Int.emod_nonneg _ (by norm_num)
    have hcast : (((((resp.Total : Int) - (resp.Used : Int)) % 2 ^ 64).toNat : Nat) : Int) =
        ((resp.Total : Int) - (resp.Used : Int)) % 2 ^ 64 := Int.toNat_of_nonneg hnn
    omega
  have hfield : (n.updateMetric resp threshold).MaxMemAvailWeight =
      (resp.Total + 2 ^ 64 - resp.Used) % 2 ^ 64 := by
    simp only [MetaNode.updateMetric]
    exact hM
  refine ⟨?_, ?_, ?_, ?_, ?_, ?_⟩
  · simp only [MetaNode.updateMetric, hM]
  · rw [hfield]; omega
  · rw [hfield]; omega
  · intro h; rw [hfield]; omega
  · intro h; rw [hfield]; omega
  · rw [hfield]; omega

set_option maxRecDepth 4000 in
/-- C20, on the sample node: a response with three quarters of 1 TiB used, and a
response that reports 11 used of 10. -/
theorem updateMetric_spec_witness :
    (sampleNode.updateMetric sampleResp Flt.lit0_75).MaxMemAvailWeight = 2 ^ 38 ∧
    (sampleNode.updateMetric sampleResp Flt.lit0_75).Ratio = Flt.fin false (3 * 2 ^ 51) (-53) ∧
    (sampleNode.updateMetric sampleResp Flt.lit0_75).MetaPartitionCount = 2 ∧
    (sampleNode.updateMetric sampleRespOver Flt.lit0_75).MaxMemAvailWeight = 2 ^ 64 - 1 ∧
    ((sampleNode.updateMetric sampleResp Flt.lit0_75).MaxMemAvailWeight + sampleResp.Used =
        sampleResp.Total ↔ sampleResp.Used ≤ sampleResp.Total) ∧
    ((sampleNode.updateMetric sampleRespOver Flt.lit0_75).MaxMemAvailWeight ≤
        sampleRespOver.Total ↔ sampleRespOver.Used ≤ sampleRespOver.Total) :=
  ⟨by decide, by decide, by decide, by decide,
    (updateMetric_spec sampleNode sampleResp Flt.lit0_75 (by decide) (by decide)).2.1,
    (updateMetric_spec sampleNode sampleRespOver Flt.lit0_75 (by decide) (by decide)).2.2.1⟩

end Master
